import Mathlib

/-!
# Verification of the lw-ecs entity-component-system core

Shallow embedding of src/include/ECS/ecs_base.hpp (namespace ecs).

Modelling conventions:
* Entity, ComponentType, size_t are modelled as Nat; uint32_t arithmetic
  is taken modulo 2^32 where the code can wrap (EntityManager::mLivingEntityCount).
* std::bitset<MAX_COMPONENTS> (Signature) is modelled as the finite set of its
  set bit indices (Finset Nat); operator& is intersection, operator== is equality,
  set(i, true) inserts i, set(i, false) erases i, reset() is the empty set.
* absl::flat_hash_map is modelled as an association list (List (key, value)) with
  lookupA; map.insert never overwrites an existing key (insertA), map[k] = v
  overwrites (setA), map[k] as an rvalue read default-inserts a value when the key
  is absent (bracketRead), map.erase removes the key (eraseA).
* std::set<Entity> is modelled as a duplicate-free List Nat via insertS / eraseS.
* std::queue<Entity> is a List Nat whose head is the front.
* std::array<T, N> is a List of length N; reads use getD / get?.
* Fatal misuse (LOG_ERROR followed by assert(false), which aborts) is modelled by
  an Option result, none being the abort; recoverable misuse (LOG_ERROR followed
  by return) is modelled by an error counter in the result.
-/

namespace ECS

/-! ## Definitions: the shallow embedding of ecs_base.hpp -/

/-- Entity id type bound: const Entity MAX_ENTITIES = 10000. -/
def MAX_ENTITIES : Nat := 10000

/-- Component type bound: const ComponentType MAX_COMPONENTS = 1000. -/
def MAX_COMPONENTS : Nat := 1000

/-- std::bitset<MAX_COMPONENTS>, modelled as the set of indices of set bits. -/
abbrev Signature := Finset Nat

/-- bitset::set(i, b): insert bit index on true, erase it on false. -/
def sigSet (s : Signature) (i : Nat) (b : Bool) : Signature :=
  if b then insert i s else s.erase i

/-- (signature & systemSignature) == systemSignature -- the superset test used by
SystemManager::entitySignatureChanged. -/
def sigMatches (sig req : Signature) : Prop := sig ∩ req = req

instance (sig req : Signature) : Decidable (sigMatches sig req) := by
  unfold sigMatches; infer_instance

variable {α : Type} [DecidableEq α] {β : Type}

/-- Lookup in an association list (hash-map find). -/
def lookupA : List (α × β) → α → Option β
  | [], _ => none
  | (k, v) :: t, a => if k = a then some v else lookupA t a

/-- map.erase(k): removes the entry with key k, if any. -/
def eraseA : List (α × β) → α → List (α × β)
  | [], _ => []
  | (k', v) :: t, k => if k' = k then eraseA t k else (k', v) :: eraseA t k

/-- map[k] = v (operator[] write: insert-or-assign). -/
def setA (m : List (α × β)) (k : α) (v : β) : List (α × β) :=
  eraseA m k ++ [(k, v)]

/-- map.insert(k, v): inserts only when the key is absent, never overwrites. -/
def insertA (m : List (α × β)) (k : α) (v : β) : List (α × β) :=
  match lookupA m k with
  | some _ => m
  | none => m ++ [(k, v)]

/-- map[k] as an rvalue (operator[] read): returns the mapped value, and
default-inserts the default value when the key is absent. -/
def bracketRead (m : List (α × β)) (k : α) (dflt : β) :
    β × List (α × β) :=
  match lookupA m k with
  | some v => (v, m)
  | none => (dflt, m ++ [(k, dflt)])

/-- Keys of an association list. -/
def keysA (m : List (α × β)) : List α := m.map Prod.fst

/-- std::set insert: adds the element only when absent. -/
def insertS (s : List α) (a : α) : List α :=
  if a ∈ s then s else s ++ [a]

/-- std::set / std::queue erase of a value. -/
def eraseS (s : List α) (a : α) : List α :=
  s.filter (fun x => x ≠ a)

/-- 2^32: uint32_t arithmetic on mLivingEntityCount wraps at this modulus. -/
def U32 : Nat := 4294967296

/-- EntityManager state: the queue of unused ids (front at the head), the set of
used ids, the per-slot signature array, and the uint32_t live counter. -/
structure EntityManager where
  mAvailableEntities : List Nat
  mExistingEntities : List Nat
  mSignatures : List Signature
  mLivingEntityCount : Nat
deriving DecidableEq

/-- EntityManager::EntityManager(): fills the queue with 0, 1, ..., MAX_ENTITIES-1.
(List.range' 0 n is the list 0, 1, ..., n-1.) -/
def emInit : EntityManager :=
  { mAvailableEntities := List.range' 0 MAX_ENTITIES
    mExistingEntities := []
    mSignatures := List.replicate MAX_ENTITIES (∅ : Signature)
    mLivingEntityCount := 0 }

/-- EntityManager::createEntity. none models the fatal path
(LOG_ERROR + assert(false)) when mLivingEntityCount >= MAX_ENTITIES; the empty
queue branch (std::queue::front on an empty queue) is also none, but it is
unreachable: whenever the queue is empty the counter is at least MAX_ENTITIES. -/
def EntityManager.createEntity (s : EntityManager) : Option (Nat × EntityManager) :=
  if s.mLivingEntityCount ≥ MAX_ENTITIES then none
  else
    match s.mAvailableEntities with
    | [] => none
    | id :: rest =>
      some (id,
        { s with
            mAvailableEntities := rest
            mLivingEntityCount := (s.mLivingEntityCount + 1) % U32
            mExistingEntities := insertS s.mExistingEntities id })

/-- EntityManager::destroyEntity. Second component counts LOG_ERROR calls.
Note the source does not check that the entity is alive ("May want to add check if
entity is alive"): an in-range dead id is still pushed onto the queue and the
uint32_t live counter is decremented, wrapping around at zero. -/
def EntityManager.destroyEntity (s : EntityManager) (entity : Nat) :
    EntityManager × Nat :=
  if entity ≥ MAX_ENTITIES then (s, 1)
  else
    ({ s with
        mSignatures := s.mSignatures.set entity (∅ : Signature)
        mExistingEntities := eraseS s.mExistingEntities entity
        mAvailableEntities := s.mAvailableEntities ++ [entity]
        mLivingEntityCount := (s.mLivingEntityCount + U32 - 1) % U32 }, 0)

/-- EntityManager::setSignature. Out-of-range entity: LOG_ERROR and no-op. -/
def EntityManager.setSignature (s : EntityManager) (entity : Nat) (signature : Signature) :
    EntityManager × Nat :=
  if entity ≥ MAX_ENTITIES then (s, 1)
  else ({ s with mSignatures := s.mSignatures.set entity signature }, 0)

/-- EntityManager::getSignature. For an out-of-range entity the code logs an
error, executes assert(true) -- which is a no-op -- and then still evaluates
mSignatures[entity], an out-of-bounds read of the MAX_ENTITIES-slot std::array;
the model returns the (defined) in-bounds value as some, and none for the
out-of-bounds read, which has no defined value. -/
def EntityManager.getSignature (s : EntityManager) (entity : Nat) :
    Option Signature × Nat :=
  if entity ≥ MAX_ENTITIES then (s.mSignatures.get? entity, 1)
  else (s.mSignatures.get? entity, 0)

/-- Structural invariant of the EntityManager: the available queue and the set of
existing (live) entities are duplicate-free, disjoint, and together cover exactly
the id range, the counter equals the number of live entities, and the signature
array has MAX_ENTITIES slots. -/
structure EMInv (s : EntityManager) : Prop where
  nodupAvail : s.mAvailableEntities.Nodup
  nodupLive : s.mExistingEntities.Nodup
  memRange : ∀ e, e < MAX_ENTITIES ↔ (e ∈ s.mAvailableEntities ∨ e ∈ s.mExistingEntities)
  disj : ∀ e, e ∈ s.mAvailableEntities → e ∉ s.mExistingEntities
  countEq : s.mLivingEntityCount = s.mExistingEntities.length
  sigLen : s.mSignatures.length = MAX_ENTITIES

/-- A client-visible EntityManager operation. -/
inductive EMOp
  | create
  | destroy (e : Nat)

/-- Run a sequence of EntityManager operations; none propagates a fatal
createEntity. -/
def runEM : EntityManager → List EMOp → Option EntityManager
  | s, [] => some s
  | s, EMOp.create :: t =>
    match s.createEntity with
    | none => none
    | some (_, s') => runEM s' t
  | s, EMOp.destroy e :: t => runEM (s.destroyEntity e).1 t

/-- Well-formed use of the EntityManager: createEntity only while fewer than
MAX_ENTITIES entities are live, destroyEntity only on currently-live ids. -/
def wfEM : EntityManager → List EMOp → Bool
  | _, [] => true
  | s, EMOp.create :: t =>
    decide (s.mLivingEntityCount < MAX_ENTITIES) &&
      (match s.createEntity with
       | none => false
       | some (_, s') => wfEM s' t)
  | s, EMOp.destroy e :: t =>
    decide (e ∈ s.mExistingEntities) && wfEM (s.destroyEntity e).1 t

/-- n successive createEntity calls, collecting the returned ids. -/
def runCreates : EntityManager → Nat → Option (List Nat × EntityManager)
  | s, 0 => some ([], s)
  | s, n+1 =>
    match s.createEntity with
    | none => none
    | some (id, s') =>
      match runCreates s' n with
      | none => none
      | some (ids, s2) => some (id :: ids, s2)

/-- ComponentArray<T>: the dense backing std::array (MAX_ENTITIES slots), the two
direction maps, and the size of the dense region. mSize has no initializer in the
class, but the arrays are created via value-initialization (new ComponentArray<T>()),
which zero-initializes it. -/
structure ComponentArray (A : Type) where
  mComponentArray : List A
  mEntityToIndexMap : List (Nat × Nat)
  mIndexToEntityMap : List (Nat × Nat)
  mSize : Nat
deriving DecidableEq

/-- A fresh ComponentArray<T>, as allocated by ComponentManager::registerComponent. -/
def caInit (A : Type) [Inhabited A] : ComponentArray A :=
  { mComponentArray := List.replicate MAX_ENTITIES default
    mEntityToIndexMap := []
    mIndexToEntityMap := []
    mSize := 0 }

/-- ComponentArray::insertData. Second component counts LOG_ERROR calls: a
duplicate insert logs once and mutates nothing. -/
def insertData {A : Type} (s : ComponentArray A) (entity : Nat) (component : A) :
    ComponentArray A × Nat :=
  match lookupA s.mEntityToIndexMap entity with
  | some _ => (s, 1)
  | none =>
    let newIndex := s.mSize
    ({ mComponentArray := s.mComponentArray.set newIndex component
       mEntityToIndexMap := setA s.mEntityToIndexMap entity newIndex
       mIndexToEntityMap := setA s.mIndexToEntityMap newIndex entity
       mSize := s.mSize + 1 }, 0)

/-- ComponentArray::removeData: swap-to-end removal. The two operator[] reads use
bracketRead; mIndexToEntityMap[indexOfLastElement] would default-insert when that
index is untracked, which cannot happen in states satisfying the invariant.
size_t subtractions are modelled by Nat subtraction; mSize = 0 with a tracked
entity is unreachable from the empty state. -/
def removeData {A : Type} [Inhabited A] (s : ComponentArray A) (entity : Nat) :
    ComponentArray A × Nat :=
  match lookupA s.mEntityToIndexMap entity with
  | none => (s, 1)
  | some _ =>
    let r1 := bracketRead s.mEntityToIndexMap entity 0
    let indexOfRemovedEntity := r1.1
    let indexOfLastElement := s.mSize - 1
    let arr := s.mComponentArray.set indexOfRemovedEntity
      (s.mComponentArray.getD indexOfLastElement default)
    let r2 := bracketRead s.mIndexToEntityMap indexOfLastElement 0
    let entityOfLastElement := r2.1
    let e2i1 := setA r1.2 entityOfLastElement indexOfRemovedEntity
    let i2e1 := setA r2.2 indexOfRemovedEntity entityOfLastElement
    ({ mComponentArray := arr
       mEntityToIndexMap := eraseA e2i1 entity
       mIndexToEntityMap := eraseA i2e1 indexOfLastElement
       mSize := s.mSize - 1 }, 0)

/-- ComponentArray::getData. none models the fatal path (LOG_ERROR +
assert(false)) for an untracked entity; otherwise the dense slot is returned. -/
def getData {A : Type} [Inhabited A] (s : ComponentArray A) (entity : Nat) :
    Option A :=
  match lookupA s.mEntityToIndexMap entity with
  | none => none
  | some idx => some (s.mComponentArray.getD idx default)

/-- ComponentArray::entityDestroyed: removes the data only if present, no error
path. -/
def caEntityDestroyed {A : Type} [Inhabited A] (s : ComponentArray A) (entity : Nat) :
    ComponentArray A :=
  match lookupA s.mEntityToIndexMap entity with
  | some _ => (removeData s entity).1
  | none => s

/-- Density invariant of a ComponentArray: the size equals the number of tracked
entities, every tracked entity maps below the size, the two maps are mutually
inverse, every dense index below the size is mapped, the entity-to-index keys are
duplicate-free, and the backing array keeps its MAX_ENTITIES slots. -/
structure CAInv {A : Type} (s : ComponentArray A) : Prop where
  sizeEq : s.mSize = s.mEntityToIndexMap.length
  e2iBound : ∀ e i, lookupA s.mEntityToIndexMap e = some i → i < s.mSize
  e2iToI2e : ∀ e i, lookupA s.mEntityToIndexMap e = some i →
    lookupA s.mIndexToEntityMap i = some e
  i2eToE2i : ∀ i e, lookupA s.mIndexToEntityMap i = some e →
    lookupA s.mEntityToIndexMap e = some i
  i2eCover : ∀ i, i < s.mSize → ∃ e, lookupA s.mIndexToEntityMap i = some e
  nodupKeys : (keysA s.mEntityToIndexMap).Nodup
  arrLen : s.mComponentArray.length = MAX_ENTITIES

/-- A client-visible ComponentArray operation. -/
inductive CAOp (A : Type)
  | insert (e : Nat) (v : A)
  | remove (e : Nat)
  | destroyed (e : Nat)

/-- Run a sequence of ComponentArray operations. -/
def runCA {A : Type} [Inhabited A] : ComponentArray A → List (CAOp A) → ComponentArray A
  | s, [] => s
  | s, CAOp.insert e v :: t => runCA (insertData s e v).1 t
  | s, CAOp.remove e :: t => runCA (removeData s e).1 t
  | s, CAOp.destroyed e :: t => runCA (caEntityDestroyed s e) t

/-- The entities handed to insertData during a sequence of operations. -/
def insertedOf {A : Type} : List (CAOp A) → List Nat
  | [] => []
  | CAOp.insert e _ :: t => e :: insertedOf t
  | CAOp.remove _ :: t => insertedOf t
  | CAOp.destroyed _ :: t => insertedOf t

/-- A System object: its live membership set (std::set<Entity>). The
entityRegistered / entityErased virtual hooks are modelled as emitted
notifications (see Notif). -/
structure SystemRec where
  mEntities : List Nat
deriving DecidableEq

/-- SystemManager state: per-type required signatures and per-type system
objects (typeid keys modelled as Nat). -/
structure SystemManager where
  mSignatures : List (Nat × Signature)
  mSystems : List (Nat × SystemRec)
deriving DecidableEq

def smInit : SystemManager := { mSignatures := [], mSystems := [] }

/-- SystemManager::registerSystem<T>: none models the fatal duplicate
registration (LOG_ERROR + assert(false)); otherwise one fresh system object with
empty membership is stored. -/
def registerSystem (sm : SystemManager) (t : Nat) : Option SystemManager :=
  match lookupA sm.mSystems t with
  | some _ => none
  | none => some { sm with mSystems := insertA sm.mSystems t ⟨[]⟩ }

/-- SystemManager::setSignature<T>: logs an error (count in the second
component) and no-ops when T is unregistered; otherwise calls
flat_hash_map::insert, which does NOT overwrite an existing entry. -/
def smSetSignature (sm : SystemManager) (t : Nat) (signature : Signature) :
    SystemManager × Nat :=
  match lookupA sm.mSystems t with
  | none => (sm, 1)
  | some _ => ({ sm with mSignatures := insertA sm.mSignatures t signature }, 0)

/-- SystemManager::entityDestroyed: erases the entity from every system's
membership set, firing no notifications. -/
def smEntityDestroyed (sm : SystemManager) (entity : Nat) : SystemManager :=
  { sm with
      mSystems := sm.mSystems.map (fun p => (p.1, ⟨eraseS p.2.mEntities entity⟩)) }

/-- A System.entityRegistered / System.entityErased notification fired during
entitySignatureChanged, tagged with the system type and the entity. -/
inductive Notif
  | registered (t e : Nat)
  | erased (t e : Nat)
deriving DecidableEq

/-- The loop of SystemManager::entitySignatureChanged: for each registered
system in order, reads mSignatures[type] (operator[], default-inserting an empty
signature for types never given one), then inserts or erases the entity and
fires the corresponding notification unconditionally. Returns the updated
systems, the updated signature map, and the notifications in order. -/
def escLoop (entity : Nat) (signature : Signature) :
    List (Nat × SystemRec) → List (Nat × Signature) →
    List (Nat × SystemRec) × List (Nat × Signature) × List Notif
  | [], sigs => ([], sigs, [])
  | (t, sys) :: rest, sigs =>
    let r := bracketRead sigs t (∅ : Signature)
    if sigMatches signature r.1 then
      let rec2 := escLoop entity signature rest r.2
      ((t, ⟨insertS sys.mEntities entity⟩) :: rec2.1, rec2.2.1,
        Notif.registered t entity :: rec2.2.2)
    else
      let rec2 := escLoop entity signature rest r.2
      ((t, ⟨eraseS sys.mEntities entity⟩) :: rec2.1, rec2.2.1,
        Notif.erased t entity :: rec2.2.2)

/-- SystemManager::entitySignatureChanged. -/
def entitySignatureChanged (sm : SystemManager) (entity : Nat)
    (signature : Signature) : SystemManager × List Notif :=
  let r := escLoop entity signature sm.mSystems sm.mSignatures
  ({ mSystems := r.1, mSignatures := r.2.1 }, r.2.2)

/-- Concrete SystemManager states used by witnesses and counterexamples. -/
def smReg0 : SystemManager :=
  { mSignatures := [], mSystems := [(0, SystemRec.mk [])] }

def smSig1 : SystemManager :=
  { mSignatures := [(0, ({1} : Signature))], mSystems := [(0, SystemRec.mk [])] }

def smMember5 : SystemManager :=
  { mSignatures := [(0, (∅ : Signature))], mSystems := [(0, SystemRec.mk [5])] }

def smReg7 : SystemManager :=
  { mSignatures := [], mSystems := [(7, SystemRec.mk [])] }

/-- ResourceArray<T>: a string-keyed map of non-owning pointers to T (pointers
modelled as Nat, 0 being nullptr). freedPointers is a ghost trace of every
pointer handed to operator delete; no ResourceArray operation frees a pointee
(the delete calls in deleteResource and deleteAll are commented out in the
source), so every operation leaves it unchanged. -/
structure ResourceArray where
  data : List (String × Nat)
  freedPointers : List Nat
deriving DecidableEq

def raInit : ResourceArray := { data := [], freedPointers := [] }

/-- ResourceArray::getResource(key): operator[] read, default-inserting nullptr
when the key is missing, returning the mapped pointer. -/
def raGetResource (r : ResourceArray) (key : String) : Nat × ResourceArray :=
  let b := bracketRead r.data key 0
  (b.1, { r with data := b.2 })

/-- ResourceArray::setResource(key, value): operator[] write (insert-or-assign). -/
def raSetResource (r : ResourceArray) (key : String) (value : Nat) :
    ResourceArray :=
  { r with data := setA r.data key value }

/-- ResourceArray::deleteResource(key): removes the mapping only; the
commented-out delete of the pointee does not run. -/
def raDeleteResource (r : ResourceArray) (key : String) : ResourceArray :=
  { r with data := eraseA r.data key }

/-- ResourceArray::deleteAll(): clears all mappings, freeing nothing. -/
def raDeleteAll (r : ResourceArray) : ResourceArray :=
  { r with data := [] }

structure ResourceManager where
  resourceArrays : List (Nat × ResourceArray)
deriving DecidableEq

def rmInit : ResourceManager := { resourceArrays := [] }

/-- ResourceManager::registerResourceType<T>: duplicate registration logs an
error (counted in the second component) and is a no-op. -/
def registerResourceType (rm : ResourceManager) (t : Nat) :
    ResourceManager × Nat :=
  match lookupA rm.resourceArrays t with
  | some _ => (rm, 1)
  | none => (ResourceManager.mk (insertA rm.resourceArrays t raInit), 0)

/-- ResourceManager::getResourceArray<T>: none models the fatal path (LOG_ERROR
+ assert(false)) for an unregistered type. -/
def getResourceArray (rm : ResourceManager) (t : Nat) : Option ResourceArray :=
  lookupA rm.resourceArrays t

/-- ResourceManager::getResource<T>(key); the operator[] default-insert is
written back to the stored array. -/
def rmGetResource (rm : ResourceManager) (t : Nat) (key : String) :
    Option (Nat × ResourceManager) :=
  match getResourceArray rm t with
  | none => none
  | some arr =>
    let r := raGetResource arr key
    some (r.1, ResourceManager.mk (setA rm.resourceArrays t r.2))

/-- ResourceManager::setResource<T>(key, value). -/
def rmSetResource (rm : ResourceManager) (t : Nat) (key : String) (value : Nat) :
    Option ResourceManager :=
  match getResourceArray rm t with
  | none => none
  | some arr =>
    some (ResourceManager.mk (setA rm.resourceArrays t (raSetResource arr key value)))

/-- ResourceManager::deleteResource<T>(key). -/
def rmDeleteResource (rm : ResourceManager) (t : Nat) (key : String) :
    Option ResourceManager :=
  match getResourceArray rm t with
  | none => none
  | some arr =>
    some (ResourceManager.mk (setA rm.resourceArrays t (raDeleteResource arr key)))

/-- ComponentManager: the per-type id registry (typeid keys as Nat), the
per-type arrays (all component payloads modelled as Nat), and the next free id. -/
structure ComponentManager where
  mComponentTypes : List (Nat × Nat)
  mComponentArrays : List (Nat × ComponentArray Nat)
  mNextComponentType : Nat
deriving DecidableEq

def cmInit : ComponentManager :=
  { mComponentTypes := [], mComponentArrays := [], mNextComponentType := 0 }

/-- ComponentManager::registerComponent<T>: assigns the next id and allocates a
fresh array; duplicate registration logs an error (counted) and is a no-op. -/
def registerComponent (cm : ComponentManager) (t : Nat) : ComponentManager × Nat :=
  match lookupA cm.mComponentTypes t with
  | some _ => (cm, 1)
  | none =>
    ({ mComponentTypes := insertA cm.mComponentTypes t cm.mNextComponentType
       mComponentArrays := insertA cm.mComponentArrays t (caInit Nat)
       mNextComponentType := cm.mNextComponentType + 1 }, 0)

/-- ComponentManager::getComponentType<T>: the assigned id; none models the
fatal path for an unregistered type. -/
def getComponentType (cm : ComponentManager) (t : Nat) : Option Nat :=
  lookupA cm.mComponentTypes t

/-- ComponentManager::getComponentArray<T>: fatal (none) when T is not in
mComponentTypes; registration always fills both maps together, so the
mComponentArrays read is present in every reachable state. -/
def getComponentArray (cm : ComponentManager) (t : Nat) :
    Option (ComponentArray Nat) :=
  match lookupA cm.mComponentTypes t with
  | none => none
  | some _ => lookupA cm.mComponentArrays t

/-- ComponentManager::addComponent<T>: routes to the array; the in-place
mutation through the pointer is modelled by writing the updated array back.
Second component counts LOG_ERROR calls from insertData. -/
def cmAddComponent (cm : ComponentManager) (t e v : Nat) :
    Option (ComponentManager × Nat) :=
  match getComponentArray cm t with
  | none => none
  | some arr =>
    let r := insertData arr e v
    some ({ cm with mComponentArrays := setA cm.mComponentArrays t r.1 }, r.2)

/-- ComponentManager::removeComponent<T>. -/
def cmRemoveComponent (cm : ComponentManager) (t e : Nat) :
    Option (ComponentManager × Nat) :=
  match getComponentArray cm t with
  | none => none
  | some arr =>
    let r := removeData arr e
    some ({ cm with mComponentArrays := setA cm.mComponentArrays t r.1 }, r.2)

/-- ComponentManager::getComponent<T>. -/
def cmGetComponent (cm : ComponentManager) (t e : Nat) : Option Nat :=
  match getComponentArray cm t with
  | none => none
  | some arr => getData arr e

/-- ComponentManager::entityDestroyed: fans out to every array. -/
def cmEntityDestroyed (cm : ComponentManager) (e : Nat) : ComponentManager :=
  { cm with mComponentArrays :=
      cm.mComponentArrays.map (fun p => (p.1, caEntityDestroyed p.2 e)) }

structure Coordinator where
  pComponentManager : ComponentManager
  pEntityManager : EntityManager
  pSystemManager : SystemManager
  pResourceManager : ResourceManager
deriving DecidableEq

/-- Coordinator::init(). -/
def coordInit : Coordinator :=
  { pComponentManager := cmInit
    pEntityManager := emInit
    pSystemManager := smInit
    pResourceManager := rmInit }

/-- Coordinator::createEntity. -/
def coordCreateEntity (c : Coordinator) : Option (Nat × Coordinator) :=
  match c.pEntityManager.createEntity with
  | none => none
  | some (id, em) => some (id, { c with pEntityManager := em })

/-- Coordinator::destroyEntity: entity manager first, then component storage,
then system membership. -/
def coordDestroyEntity (c : Coordinator) (e : Nat) : Coordinator × Nat :=
  let r := c.pEntityManager.destroyEntity e
  ({ c with pEntityManager := r.1
            pComponentManager := cmEntityDestroyed c.pComponentManager e
            pSystemManager := smEntityDestroyed c.pSystemManager e }, r.2)

/-- Coordinator::registerComponent<T>. -/
def coordRegisterComponent (c : Coordinator) (t : Nat) : Coordinator × Nat :=
  let r := registerComponent c.pComponentManager t
  ({ c with pComponentManager := r.1 }, r.2)

/-- Coordinator::addComponent<T>: add the value, set the bit at T's component
type in the entity's signature, store it, and re-evaluate system membership.
none models a fatal path (unregistered T) or the undefined out-of-range
signature read. -/
def coordAddComponent (c : Coordinator) (t e v : Nat) :
    Option (Coordinator × List Notif) :=
  match cmAddComponent c.pComponentManager t e v with
  | none => none
  | some (cm, _) =>
    match (c.pEntityManager.getSignature e).1 with
    | none => none
    | some sig0 =>
      match getComponentType cm t with
      | none => none
      | some ct =>
        let signature := sigSet sig0 ct true
        let r2 := c.pEntityManager.setSignature e signature
        let r3 := entitySignatureChanged c.pSystemManager e signature
        some ({ c with pComponentManager := cm
                       pEntityManager := r2.1
                       pSystemManager := r3.1 }, r3.2)

/-- Coordinator::removeComponent<T>: remove the value, clear the bit, store the
signature, and re-evaluate system membership. -/
def coordRemoveComponent (c : Coordinator) (t e : Nat) :
    Option (Coordinator × List Notif) :=
  match cmRemoveComponent c.pComponentManager t e with
  | none => none
  | some (cm, _) =>
    match (c.pEntityManager.getSignature e).1 with
    | none => none
    | some sig0 =>
      match getComponentType cm t with
      | none => none
      | some ct =>
        let signature := sigSet sig0 ct false
        let r2 := c.pEntityManager.setSignature e signature
        let r3 := entitySignatureChanged c.pSystemManager e signature
        some ({ c with pComponentManager := cm
                       pEntityManager := r2.1
                       pSystemManager := r3.1 }, r3.2)

/-- Coordinator::getComponent<T>. -/
def coordGetComponent (c : Coordinator) (t e : Nat) : Option Nat :=
  cmGetComponent c.pComponentManager t e

/-- Coordinator::getComponentType<T>. -/
def coordGetComponentType (c : Coordinator) (t : Nat) : Option Nat :=
  getComponentType c.pComponentManager t

/-- Coordinator::registerSystem<T>. -/
def coordRegisterSystem (c : Coordinator) (t : Nat) : Option Coordinator :=
  match registerSystem c.pSystemManager t with
  | none => none
  | some sm => some { c with pSystemManager := sm }

/-- Coordinator::setSystemSignature<T>. -/
def coordSetSystemSignature (c : Coordinator) (t : Nat) (sig : Signature) :
    Coordinator × Nat :=
  let r := smSetSignature c.pSystemManager t sig
  ({ c with pSystemManager := r.1 }, r.2)

/-- The amended C1 property at one state: addComponent / removeComponent leave
every registered system holding e exactly when e's updated signature matches
that system's (possibly defaulted-empty) required signature, and leave every
other entity's membership unchanged; destroyEntity removes e from every system;
createEntity touches no system state; setSystemSignature touches no membership;
registerSystem creates its system with empty membership and re-evaluates
nothing. -/
def MembershipSyncSpec (c : Coordinator) (t e v : Nat) : Prop :=
  (∀ c' notifs, coordAddComponent c t e v = some (c', notifs) →
    ∃ sig0 ct, (c.pEntityManager.getSignature e).1 = some sig0 ∧
      getComponentType c'.pComponentManager t = some ct ∧
      ∀ st sys, lookupA c.pSystemManager.mSystems st = some sys →
        ∃ sys', lookupA c'.pSystemManager.mSystems st = some sys' ∧
          (e ∈ sys'.mEntities ↔ sigMatches (sigSet sig0 ct true)
            ((lookupA c.pSystemManager.mSignatures st).getD ∅)) ∧
          (∀ x, x ≠ e → (x ∈ sys'.mEntities ↔ x ∈ sys.mEntities))) ∧
  (∀ c' notifs, coordRemoveComponent c t e = some (c', notifs) →
    ∃ sig0 ct, (c.pEntityManager.getSignature e).1 = some sig0 ∧
      getComponentType c'.pComponentManager t = some ct ∧
      ∀ st sys, lookupA c.pSystemManager.mSystems st = some sys →
        ∃ sys', lookupA c'.pSystemManager.mSystems st = some sys' ∧
          (e ∈ sys'.mEntities ↔ sigMatches (sigSet sig0 ct false)
            ((lookupA c.pSystemManager.mSignatures st).getD ∅)) ∧
          (∀ x, x ≠ e → (x ∈ sys'.mEntities ↔ x ∈ sys.mEntities))) ∧
  (∀ st sys', lookupA ((coordDestroyEntity c e).1).pSystemManager.mSystems st =
      some sys' → e ∉ sys'.mEntities) ∧
  (∀ id c', coordCreateEntity c = some (id, c') →
    c'.pSystemManager = c.pSystemManager) ∧
  (∀ sig, ((coordSetSystemSignature c t sig).1).pSystemManager.mSystems =
    c.pSystemManager.mSystems) ∧
  (∀ c', coordRegisterSystem c t = some c' →
    lookupA c'.pSystemManager.mSystems t = some (SystemRec.mk []) ∧
    (∀ st, st ≠ t → lookupA c'.pSystemManager.mSystems st =
      lookupA c.pSystemManager.mSystems st))

/-- A concrete coordinator with component type 0 and system type 0 registered,
used as the C1 witness input. -/
def coordW : Coordinator :=
  { pComponentManager := (registerComponent cmInit 0).1
    pEntityManager := emInit
    pSystemManager := smReg0
    pResourceManager := rmInit }

/-! ## Theorems -/

@[simp] theorem lookupA_nil (a : α) : lookupA ([] : List (α × β)) a = none := rfl

@[simp] theorem lookupA_cons (k a : α) (v : β) (t : List (α × β)) :
    lookupA ((k, v) :: t) a = if k = a then some v else lookupA t a := rfl

theorem lookupA_append (m₁ m₂ : List (α × β)) (a : α) :
    lookupA (m₁ ++ m₂) a = ((lookupA m₁ a).orElse (fun _ => lookupA m₂ a)) := by
  induction m₁ with
  | nil => simp
  | cons p t ih =>
    obtain ⟨k, v⟩ := p
    by_cases h : k = a <;> simp [h, ih]

theorem lookupA_eraseA (m : List (α × β)) (k a : α) :
    lookupA (eraseA m k) a = if k = a then none else lookupA m a := by
  induction m with
  | nil => simp [eraseA]
  | cons p t ih =>
    obtain ⟨k', v⟩ := p
    by_cases hk : k' = k
    · subst hk
      by_cases ha : k' = a
      · subst ha; simp [eraseA, ih]
      · simp [eraseA, ha, ih]
    · by_cases ha : k' = a
      · subst ha
        have hka : ¬k = k' := fun h => hk h.symm
        simp [eraseA, hk, hka]
      · simp [eraseA, hk, ha, ih]

theorem lookupA_setA (m : List (α × β)) (k a : α) (v : β) :
    lookupA (setA m k v) a = if k = a then some v else lookupA m a := by
  unfold setA
  rw [lookupA_append, lookupA_eraseA]
  by_cases h : k = a <;> simp [h]

theorem lookupA_insertA (m : List (α × β)) (k a : α) (v : β) :
    lookupA (insertA m k v) a =
      match lookupA m k with
      | some _ => lookupA m a
      | none => if k = a then some v else lookupA m a := by
  unfold insertA
  cases hm : lookupA m k with
  | some w => simp [hm]
  | none =>
    rw [lookupA_append]
    by_cases h : k = a
    · subst h; simp [hm]
    · cases hma : lookupA m a <;> simp [h, hma]

theorem lookupA_isSome_iff_mem_keysA (m : List (α × β)) (a : α) :
    (lookupA m a).isSome ↔ a ∈ keysA m := by
  induction m with
  | nil => simp [keysA]
  | cons p t ih =>
    obtain ⟨k, v⟩ := p
    by_cases h : k = a
    · subst h; simp [keysA]
    · have hkeys : keysA ((k, v) :: t) = k :: keysA t := rfl
      rw [hkeys, lookupA_cons, if_neg h]
      simp only [List.mem_cons]
      constructor
      · intro hs; exact Or.inr (ih.1 hs)
      · intro hs
        rcases hs with hs | hs
        · exact absurd hs.symm h
        · exact ih.2 hs

theorem lookupA_eq_none_of_not_mem_keysA {m : List (α × β)} {a : α}
    (h : a ∉ keysA m) : lookupA m a = none := by
  cases hl : lookupA m a with
  | none => rfl
  | some v =>
    exact absurd ((lookupA_isSome_iff_mem_keysA m a).1 (by simp [hl])) h

@[simp] theorem mem_insertS (s : List α) (a b : α) :
    b ∈ insertS s a ↔ b ∈ s ∨ b = a := by
  unfold insertS
  by_cases h : a ∈ s
  · simp [h]; intro hb; subst hb; exact h
  · simp [h]

@[simp] theorem mem_eraseS (s : List α) (a b : α) :
    b ∈ eraseS s a ↔ b ∈ s ∧ b ≠ a := by
  simp [eraseS]

theorem nodup_insertS (s : List α) (a : α) (h : s.Nodup) : (insertS s a).Nodup := by
  unfold insertS
  by_cases ha : a ∈ s
  · simpa [ha]
  · simp [ha, List.nodup_append, h]

theorem nodup_eraseS (s : List α) (a : α) (h : s.Nodup) : (eraseS s a).Nodup :=
  h.filter _

theorem EMInv.lengths {s : EntityManager} (h : EMInv s) :
    s.mAvailableEntities.length + s.mExistingEntities.length = MAX_ENTITIES := by
  have hu : s.mAvailableEntities.toFinset ∪ s.mExistingEntities.toFinset =
      Finset.range MAX_ENTITIES := by
    ext e
    simp only [Finset.mem_union, List.mem_toFinset, Finset.mem_range]
    exact (h.memRange e).symm
  have hd : Disjoint s.mAvailableEntities.toFinset s.mExistingEntities.toFinset := by
    rw [Finset.disjoint_left]
    intro a ha hb
    exact h.disj a (List.mem_toFinset.1 ha) (List.mem_toFinset.1 hb)
  have hcard := Finset.card_union_of_disjoint hd
  rw [hu, Finset.card_range, List.toFinset_card_of_nodup h.nodupAvail,
    List.toFinset_card_of_nodup h.nodupLive] at hcard
  omega

theorem emInit_inv : EMInv emInit := by
  constructor
  · show (List.range' 0 MAX_ENTITIES).Nodup
    exact List.nodup_range' _ _
  · exact List.nodup_nil
  · intro e
    show e < MAX_ENTITIES ↔ e ∈ List.range' 0 MAX_ENTITIES ∨ e ∈ ([] : List Nat)
    simp [List.mem_range'_1]
  · intro e _
    show e ∉ ([] : List Nat)
    simp
  · rfl
  · show (List.replicate MAX_ENTITIES (∅ : Signature)).length = MAX_ENTITIES
    simp

/-- A live entity count below MAX_ENTITIES means the queue is nonempty, and
createEntity succeeds, popping the front of the queue. -/
theorem createEntity_some {s : EntityManager} (h : EMInv s)
    (hc : s.mLivingEntityCount < MAX_ENTITIES) :
    ∃ id rest s', s.mAvailableEntities = id :: rest ∧
      s.createEntity = some (id, s') ∧ EMInv s' ∧
      s'.mExistingEntities = s.mExistingEntities ++ [id] ∧
      s'.mAvailableEntities = rest ∧ id ∉ s.mExistingEntities ∧
      s'.mSignatures = s.mSignatures := by
  have hlen := h.lengths
  have hposition : s.mAvailableEntities ≠ [] := by
    intro hnil
    rw [hnil] at hlen
    simp at hlen
    rw [h.countEq, hlen] at hc
    exact absurd hc (lt_irrefl _)
  obtain ⟨id, rest, havail⟩ : ∃ id rest, s.mAvailableEntities = id :: rest := by
    cases hA : s.mAvailableEntities with
    | nil => exact absurd hA hposition
    | cons a t => exact ⟨a, t, rfl⟩
  · have hidavail : id ∈ s.mAvailableEntities := by rw [havail]; exact List.mem_cons_self _ _
    have hidnotlive : id ∉ s.mExistingEntities := h.disj id hidavail
    have hins : insertS s.mExistingEntities id = s.mExistingEntities ++ [id] := by
      unfold insertS; rw [if_neg hidnotlive]
    refine ⟨id, rest,
      { s with
          mAvailableEntities := rest
          mLivingEntityCount := (s.mLivingEntityCount + 1) % U32
          mExistingEntities := insertS s.mExistingEntities id },
      havail, ?_, ?_, hins, rfl, hidnotlive, rfl⟩
    · unfold EntityManager.createEntity
      rw [if_neg (by omega), havail]
    · constructor
      · have := h.nodupAvail; rw [havail] at this; exact this.of_cons
      · rw [hins, List.nodup_append]
        refine ⟨h.nodupLive, List.nodup_singleton id, ?_⟩
        intro a ha hb
        simp at hb; subst hb
        exact hidnotlive ha
      · intro e
        rw [hins]
        constructor
        · intro he
          rcases (h.memRange e).1 he with hA | hB
          · rw [havail] at hA
            rcases List.mem_cons.1 hA with rfl | hA
            · right; simp
            · left; exact hA
          · right; simp [hB]
        · intro he
          rcases he with hA | hB
          · exact (h.memRange e).2 (Or.inl (by rw [havail]; exact List.mem_cons_of_mem _ hA))
          · rcases List.mem_append.1 hB with hB | hB
            · exact (h.memRange e).2 (Or.inr hB)
            · simp at hB; subst hB
              exact (h.memRange e).2 (Or.inl hidavail)
      · intro e heA
        intro heB
        rw [hins] at heB
        have heavail : e ∈ s.mAvailableEntities := by
          rw [havail]; exact List.mem_cons_of_mem _ heA
        rcases List.mem_append.1 heB with hB | hB
        · exact h.disj e heavail hB
        · simp at hB; subst hB
          have := h.nodupAvail
          rw [havail] at this
          exact (List.nodup_cons.1 this).1 heA
      · show (s.mLivingEntityCount + 1) % U32 = (insertS s.mExistingEntities id).length
        rw [hins, List.length_append, List.length_singleton, h.countEq]
        have hlive : s.mExistingEntities.length < MAX_ENTITIES := by
          rw [h.countEq] at hc; exact hc
        exact Nat.mod_eq_of_lt (by unfold MAX_ENTITIES at hlive; unfold U32; omega)
      · exact h.sigLen

/-- Destroying a live entity preserves the invariant; the id goes to the back of
the queue. -/
theorem destroyEntity_live_inv {s : EntityManager} (h : EMInv s) {e : Nat}
    (he : e ∈ s.mExistingEntities) :
    (s.destroyEntity e).2 = 0 ∧
    (s.destroyEntity e).1.mAvailableEntities = s.mAvailableEntities ++ [e] ∧
    EMInv (s.destroyEntity e).1 := by
  have heRange : e < MAX_ENTITIES := (h.memRange e).2 (Or.inr he)
  have henotavail : e ∉ s.mAvailableEntities := fun ha => h.disj e ha he
  unfold EntityManager.destroyEntity
  rw [if_neg (by omega)]
  refine ⟨rfl, rfl, ?_⟩
  constructor
  · simp only [List.nodup_append]
    exact ⟨h.nodupAvail, List.nodup_singleton e, by
      intro a ha hb
      simp at hb; subst hb
      exact henotavail ha⟩
  · exact nodup_eraseS _ _ h.nodupLive
  · intro x
    constructor
    · intro hx
      rcases (h.memRange x).1 hx with hA | hB
      · exact Or.inl (List.mem_append.2 (Or.inl hA))
      · by_cases hxe : x = e
        · subst hxe; exact Or.inl (by simp)
        · exact Or.inr (by simp [hB, hxe])
    · intro hx
      rcases hx with hA | hB
      · rcases List.mem_append.1 hA with hA | hA
        · exact (h.memRange x).2 (Or.inl hA)
        · simp at hA; subst hA; exact heRange
      · simp at hB
        exact (h.memRange x).2 (Or.inr hB.1)
  · intro x hx
    rcases List.mem_append.1 hx with hA | hA
    · intro hB
      simp at hB
      exact h.disj x hA hB.1
    · simp at hA; subst hA
      simp
  · show (s.mLivingEntityCount + U32 - 1) % U32 = (eraseS s.mExistingEntities e).length
    have hc : s.mLivingEntityCount = s.mExistingEntities.length := h.countEq
    have hlenE : (eraseS s.mExistingEntities e).length = s.mExistingEntities.length - 1 := by
      unfold eraseS
      have hfin : (List.filter (fun x => x ≠ e) s.mExistingEntities).toFinset =
          s.mExistingEntities.toFinset.erase e := by
        ext a
        simp only [List.mem_toFinset, List.mem_filter, Finset.mem_erase, decide_eq_true_eq]
        tauto
      have hnf : (List.filter (fun x => x ≠ e) s.mExistingEntities).Nodup :=
        h.nodupLive.filter _
      have h1 := List.toFinset_card_of_nodup hnf
      have h2 := List.toFinset_card_of_nodup h.nodupLive
      rw [hfin, Finset.card_erase_of_mem (List.mem_toFinset.2 he), h2] at h1
      exact h1.symm
    have hpos : 1 ≤ s.mExistingEntities.length := List.length_pos.2 (by
      intro hnil; rw [hnil] at he; simp at he)
    have hlt : s.mExistingEntities.length < U32 := by
      have := h.lengths
      unfold MAX_ENTITIES at this; unfold U32; omega
    rw [hc, hlenE]
    have heq : s.mExistingEntities.length + U32 - 1 =
        (s.mExistingEntities.length - 1) + U32 := by omega
    rw [heq, Nat.add_mod_right]
    exact Nat.mod_eq_of_lt (by omega)
  · rw [List.length_set]
    exact h.sigLen

/-- From any state satisfying the invariant, n <= queue length successive
createEntity calls succeed and return exactly the first n queued ids, in order. -/
theorem runCreates_take {n : Nat} :
    ∀ {s : EntityManager}, EMInv s → n ≤ s.mAvailableEntities.length →
      ∃ s', runCreates s n = some (s.mAvailableEntities.take n, s') ∧ EMInv s' := by
  induction n with
  | zero => intro s h _; exact ⟨s, rfl, h⟩
  | succ n ih =>
    intro s h hn
    have hc : s.mLivingEntityCount < MAX_ENTITIES := by
      have hlen := h.lengths
      have : 1 ≤ s.mAvailableEntities.length := le_trans (Nat.succ_le_succ (Nat.zero_le n)) hn
      rw [h.countEq]
      omega
    obtain ⟨id, rest, s', havail, hcreate, hinv, _, havail', _, _⟩ := createEntity_some h hc
    have hrest : n ≤ rest.length := by
      rw [havail] at hn; simpa using Nat.le_of_succ_le_succ hn
    obtain ⟨s2, hrun, hinv2⟩ := ih hinv (by rw [havail']; exact hrest)
    refine ⟨s2, ?_, hinv2⟩
    unfold runCreates
    rw [hcreate]
    simp only [hrun, havail', havail]
    simp [List.take_cons]

/-- Well-formed runs preserve the invariant and never hit the fatal path. -/
theorem runEM_inv :
    ∀ (ops : List EMOp) {s : EntityManager}, EMInv s → wfEM s ops = true →
      ∃ s', runEM s ops = some s' ∧ EMInv s' := by
  intro ops
  induction ops with
  | nil => intro s h _; exact ⟨s, rfl, h⟩
  | cons op t ih =>
    intro s h hwf
    cases op with
    | create =>
      unfold wfEM at hwf
      rw [Bool.and_eq_true, decide_eq_true_eq] at hwf
      obtain ⟨hc, hrest⟩ := hwf
      obtain ⟨id, rest, s', havail, hcreate, hinv, _, _, _, _⟩ := createEntity_some h hc
      rw [hcreate] at hrest
      obtain ⟨s2, hrun, hinv2⟩ := ih hinv hrest
      exact ⟨s2, by unfold runEM; rw [hcreate]; exact hrun, hinv2⟩
    | destroy e =>
      unfold wfEM at hwf
      rw [Bool.and_eq_true, decide_eq_true_eq] at hwf
      obtain ⟨he, hrest⟩ := hwf
      obtain ⟨_, _, hinv⟩ := destroyEntity_live_inv h he
      obtain ⟨s2, hrun, hinv2⟩ := ih hinv hrest
      exact ⟨s2, hrun, hinv2⟩

/-- C2 counterexample: destroying an in-range id that is not currently live (5, on
a fresh manager) pushes the id onto the available queue but also wraps the
uint32_t live counter to 2^32 - 1, after which every createEntity call hits the
fatal pool-exhausted path (LOG_ERROR + assert(false)); the destroyed id is
therefore never returned by a later createEntity, refuting the claim for this
sequence. -/
theorem entity_reuse_counterexample :
    5 < MAX_ENTITIES ∧
    5 ∉ emInit.mExistingEntities ∧
    5 ∈ ((emInit.destroyEntity 5).1).mAvailableEntities ∧
    ((emInit.destroyEntity 5).1).mLivingEntityCount = U32 - 1 ∧
    runEM emInit [EMOp.destroy 5, EMOp.create] = none := by
  refine ⟨by decide, by decide, by decide, by decide, by decide⟩

/-- C2 (amended): for every sequence of createEntity/destroyEntity calls in which
createEntity is only called while fewer than MAX_ENTITIES entities are live and
destroyEntity only on currently-live ids, no two simultaneously-live entities
share an id (the live set is duplicate-free), and destroying any live id makes it
available again and it is returned by one of the next queue-length createEntity
calls. -/
theorem entity_ids_unique_and_reused (ops : List EMOp)
    (hwf : wfEM emInit ops = true) :
    ∃ s, runEM emInit ops = some s ∧
      s.mExistingEntities.Nodup ∧
      ∀ e ∈ s.mExistingEntities,
        e ∈ ((s.destroyEntity e).1).mAvailableEntities ∧
        ∃ ids s', runCreates ((s.destroyEntity e).1)
            ((s.destroyEntity e).1).mAvailableEntities.length = some (ids, s') ∧
          e ∈ ids := by
  obtain ⟨s, hrun, hinv⟩ := runEM_inv ops emInit_inv hwf
  refine ⟨s, hrun, hinv.nodupLive, ?_⟩
  intro e he
  obtain ⟨_, havail, hinv1⟩ := destroyEntity_live_inv hinv he
  have hmem : e ∈ ((s.destroyEntity e).1).mAvailableEntities := by
    rw [havail]; simp
  refine ⟨hmem, ?_⟩
  obtain ⟨s', hcreates, _⟩ := runCreates_take hinv1 (le_refl _)
  rw [List.take_length] at hcreates
  exact ⟨_, s', hcreates, hmem⟩

/-- Witness for the amended C2 theorem at the concrete well-formed sequence
create; destroy 0; create. -/
theorem entity_ids_unique_and_reused_witness :
    wfEM emInit [EMOp.create, EMOp.destroy 0, EMOp.create] = true ∧
    (∃ s, runEM emInit [EMOp.create, EMOp.destroy 0, EMOp.create] = some s ∧
      s.mExistingEntities.Nodup ∧
      ∀ e ∈ s.mExistingEntities,
        e ∈ ((s.destroyEntity e).1).mAvailableEntities ∧
        ∃ ids s', runCreates ((s.destroyEntity e).1)
            ((s.destroyEntity e).1).mAvailableEntities.length = some (ids, s') ∧
          e ∈ ids) :=
  ⟨by decide, entity_ids_unique_and_reused _ (by decide)⟩

/-- C8: at the failing input MAX_ENTITIES, EntityManager::getSignature logs one
error and does not abort (assert(true) is a no-op), but then evaluates
mSignatures[MAX_ENTITIES], reading past the end of the MAX_ENTITIES-slot array:
the read has no defined value (none in the model), contradicting the claim that
the read stays in bounds or is otherwise well-defined. -/
theorem getSignature_out_of_range_reads_out_of_bounds :
    emInit.mSignatures.length = MAX_ENTITIES ∧
    emInit.getSignature MAX_ENTITIES = (none, 1) := by
  have hlen : emInit.mSignatures.length = MAX_ENTITIES := by
    show (List.replicate MAX_ENTITIES (∅ : Signature)).length = MAX_ENTITIES
    simp
  have hget : emInit.mSignatures.get? MAX_ENTITIES = none :=
    List.get?_len_le (le_of_eq hlen)
  refine ⟨hlen, ?_⟩
  unfold EntityManager.getSignature
  rw [if_pos (le_refl MAX_ENTITIES), hget]

@[simp] theorem eraseA_nil (k : α) : eraseA ([] : List (α × β)) k = [] := rfl

@[simp] theorem eraseA_cons (k' k : α) (v : β) (t : List (α × β)) :
    eraseA ((k', v) :: t) k =
      if k' = k then eraseA t k else (k', v) :: eraseA t k := rfl

@[simp] theorem keysA_nil : keysA ([] : List (α × β)) = [] := rfl

@[simp] theorem keysA_cons (k : α) (v : β) (t : List (α × β)) :
    keysA ((k, v) :: t) = k :: keysA t := rfl

theorem keysA_append (m₁ m₂ : List (α × β)) :
    keysA (m₁ ++ m₂) = keysA m₁ ++ keysA m₂ := by
  unfold keysA; simp

theorem keysA_eraseA (m : List (α × β)) (k : α) :
    keysA (eraseA m k) = (keysA m).filter (fun a => a ≠ k) := by
  induction m with
  | nil => rfl
  | cons p t ih =>
    obtain ⟨k', v⟩ := p
    rw [eraseA_cons, keysA_cons, List.filter_cons]
    by_cases h : k' = k
    · subst h
      rw [if_pos rfl, ih]
      simp
    · rw [if_neg h, keysA_cons, ih]
      have hd : (decide (k' ≠ k)) = true := by simp [h]
      rw [hd]
      simp

theorem nodup_keysA_eraseA {m : List (α × β)} (k : α)
    (h : (keysA m).Nodup) : (keysA (eraseA m k)).Nodup := by
  rw [keysA_eraseA]
  exact h.filter _

theorem keysA_setA (m : List (α × β)) (k : α) (v : β) :
    keysA (setA m k v) = (keysA m).filter (fun a => a ≠ k) ++ [k] := by
  unfold setA
  rw [keysA_append, keysA_eraseA, keysA_cons, keysA_nil]

theorem nodup_keysA_setA {m : List (α × β)} (k : α) (v : β)
    (h : (keysA m).Nodup) : (keysA (setA m k v)).Nodup := by
  rw [keysA_setA, List.nodup_append]
  refine ⟨h.filter _, List.nodup_singleton _, ?_⟩
  intro a ha hb
  simp at hb; subst hb
  simp at ha

theorem eraseA_eq_of_lookup_none {m : List (α × β)} {k : α}
    (h : lookupA m k = none) : eraseA m k = m := by
  induction m with
  | nil => rfl
  | cons p t ih =>
    obtain ⟨k', v⟩ := p
    rw [lookupA_cons] at h
    by_cases hk : k' = k
    · rw [if_pos hk] at h; exact absurd h (by simp)
    · rw [if_neg hk] at h
      rw [eraseA_cons, if_neg hk, ih h]

theorem length_eraseA_of_lookup_some {m : List (α × β)} {k : α} {v : β}
    (hnodup : (keysA m).Nodup) (h : lookupA m k = some v) :
    (eraseA m k).length + 1 = m.length := by
  induction m with
  | nil => simp at h
  | cons p t ih =>
    obtain ⟨k', w⟩ := p
    rw [keysA_cons, List.nodup_cons] at hnodup
    rw [lookupA_cons] at h
    by_cases hk : k' = k
    · subst hk
      rw [eraseA_cons, if_pos rfl]
      have hnone : lookupA t k' = none :=
        lookupA_eq_none_of_not_mem_keysA hnodup.1
      rw [eraseA_eq_of_lookup_none hnone]
      simp
    · rw [if_neg hk] at h
      rw [eraseA_cons, if_neg hk]
      have := ih hnodup.2 h
      simp only [List.length_cons]
      omega

theorem length_setA_of_lookup_some {m : List (α × β)} {k : α} {v w : β}
    (hnodup : (keysA m).Nodup) (h : lookupA m k = some w) :
    (setA m k v).length = m.length := by
  unfold setA
  rw [List.length_append, List.length_singleton]
  exact length_eraseA_of_lookup_some hnodup h

theorem length_setA_of_lookup_none {m : List (α × β)} {k : α} (v : β)
    (h : lookupA m k = none) :
    (setA m k v).length = m.length + 1 := by
  unfold setA
  rw [eraseA_eq_of_lookup_none h, List.length_append, List.length_singleton]

theorem caInit_inv (A : Type) [Inhabited A] : CAInv (caInit A) := by
  constructor
  · rfl
  · intro e i h; simp [caInit] at h
  · intro e i h; simp [caInit] at h
  · intro i e h; simp [caInit] at h
  · intro i h; simp [caInit] at h
  · show (keysA ([] : List (Nat × Nat))).Nodup
    simp
  · show (List.replicate MAX_ENTITIES (default : A)).length = MAX_ENTITIES
    simp

/-- insertData on an untracked entity preserves the invariant and adds the entity
at the old size. -/
theorem insertData_inv {A : Type} {s : ComponentArray A} (h : CAInv s)
    {entity : Nat} (hnew : lookupA s.mEntityToIndexMap entity = none)
    (component : A) :
    (insertData s entity component).2 = 0 ∧
    CAInv (insertData s entity component).1 ∧
    (insertData s entity component).1.mSize = s.mSize + 1 ∧
    lookupA (insertData s entity component).1.mEntityToIndexMap entity =
      some s.mSize ∧
    keysA (insertData s entity component).1.mEntityToIndexMap =
      keysA s.mEntityToIndexMap ++ [entity] := by
  have hno : lookupA s.mIndexToEntityMap s.mSize = none := by
    cases hl : lookupA s.mIndexToEntityMap s.mSize with
    | none => rfl
    | some e =>
      have := h.e2iBound e s.mSize (h.i2eToE2i _ _ hl)
      omega
  unfold insertData
  rw [hnew]
  refine ⟨rfl, ?_, rfl, ?_, ?_⟩
  · constructor
    · show s.mSize + 1 = (setA s.mEntityToIndexMap entity s.mSize).length
      rw [length_setA_of_lookup_none _ hnew, h.sizeEq]
    · intro e i hl
      show i < s.mSize + 1
      rw [lookupA_setA] at hl
      by_cases he : entity = e
      · rw [if_pos he] at hl
        have : i = s.mSize := by injection hl; omega
        omega
      · rw [if_neg he] at hl
        have := h.e2iBound e i hl
        omega
    · intro e i hl
      show lookupA (setA s.mIndexToEntityMap s.mSize entity) i = some e
      rw [lookupA_setA] at hl ⊢
      by_cases he : entity = e
      · subst he
        rw [if_pos rfl] at hl
        have hi : i = s.mSize := by injection hl; omega
        subst hi
        rw [if_pos rfl]
      · rw [if_neg he] at hl
        have hi : ¬s.mSize = i := by
          intro hsz
          have hb := h.e2iBound e i hl
          omega
        rw [if_neg hi]
        exact h.e2iToI2e e i hl
    · intro i e hl
      show lookupA (setA s.mEntityToIndexMap entity s.mSize) e = some i
      rw [lookupA_setA] at hl ⊢
      by_cases hi : s.mSize = i
      · subst hi
        rw [if_pos rfl] at hl
        have he : e = entity := by injection hl with h1; exact h1.symm
        subst he
        rw [if_pos rfl]
      · rw [if_neg hi] at hl
        have he : ¬entity = e := by
          intro hent
          have hcontra := h.i2eToE2i i e hl
          rw [← hent, hnew] at hcontra
          exact absurd hcontra (by simp)
        rw [if_neg he]
        exact h.i2eToE2i i e hl
    · intro i hi
      show ∃ e, lookupA (setA s.mIndexToEntityMap s.mSize entity) i = some e
      rw [lookupA_setA]
      by_cases hsz : s.mSize = i
      · exact ⟨entity, by rw [if_pos hsz]⟩
      · have hlt : i < s.mSize := by
          change i < s.mSize + 1 at hi
          omega
        obtain ⟨e, he⟩ := h.i2eCover i hlt
        exact ⟨e, by rw [if_neg hsz]; exact he⟩
    · exact nodup_keysA_setA _ _ h.nodupKeys
    · show (s.mComponentArray.set s.mSize component).length = MAX_ENTITIES
      rw [List.length_set]
      exact h.arrLen
  · show lookupA (setA s.mEntityToIndexMap entity s.mSize) entity = some s.mSize
    rw [lookupA_setA, if_pos rfl]
  · show keysA (setA s.mEntityToIndexMap entity s.mSize) = _
    rw [keysA_setA]
    congr 1
    have hne : ∀ a ∈ keysA s.mEntityToIndexMap, a ≠ entity := by
      intro a ha hae
      rw [hae] at ha
      have hsome : (lookupA s.mEntityToIndexMap entity).isSome :=
        (lookupA_isSome_iff_mem_keysA _ _).2 ha
      rw [hnew] at hsome
      simp at hsome
    refine List.filter_eq_self.2 ?_
    intro a ha
    simp only [ne_eq, decide_eq_true_eq]
    exact hne a ha

theorem bracketRead_present {m : List (α × β)} {k : α} {v : β} (d : β)
    (h : lookupA m k = some v) : bracketRead m k d = (v, m) := by
  unfold bracketRead
  rw [h]

/-- The concrete result of removeData on a tracked entity, given the index j of
the removed entity and the entity eLast stored at the last dense index. -/
theorem removeData_eq {A : Type} [Inhabited A] {s : ComponentArray A}
    {entity j : Nat} (hl : lookupA s.mEntityToIndexMap entity = some j)
    {eLast : Nat}
    (hLast : lookupA s.mIndexToEntityMap (s.mSize - 1) = some eLast) :
    removeData s entity =
      ({ mComponentArray := s.mComponentArray.set j
           (s.mComponentArray.getD (s.mSize - 1) default)
         mEntityToIndexMap := eraseA (setA s.mEntityToIndexMap eLast j) entity
         mIndexToEntityMap :=
           eraseA (setA s.mIndexToEntityMap j eLast) (s.mSize - 1)
         mSize := s.mSize - 1 }, 0) := by
  unfold removeData
  rw [hl]
  simp only [bracketRead_present 0 hl, bracketRead_present 0 hLast]

/-- removeData on a tracked entity preserves the invariant, shrinks the size by
one, untracked the entity, and introduces no new tracked entities. -/
theorem removeData_inv {A : Type} [Inhabited A] {s : ComponentArray A}
    (h : CAInv s) {entity j : Nat}
    (hl : lookupA s.mEntityToIndexMap entity = some j) :
    (removeData s entity).2 = 0 ∧
    CAInv (removeData s entity).1 ∧
    (removeData s entity).1.mSize = s.mSize - 1 ∧
    lookupA (removeData s entity).1.mEntityToIndexMap entity = none ∧
    (∀ x, x ∈ keysA (removeData s entity).1.mEntityToIndexMap →
      x ∈ keysA s.mEntityToIndexMap) := by
  have hj : j < s.mSize := h.e2iBound entity j hl
  have hsize : 1 ≤ s.mSize := by omega
  have hi2ej : lookupA s.mIndexToEntityMap j = some entity := h.e2iToI2e entity j hl
  obtain ⟨eLast, hLast⟩ := h.i2eCover (s.mSize - 1) (by omega)
  have he2iLast : lookupA s.mEntityToIndexMap eLast = some (s.mSize - 1) :=
    h.i2eToE2i _ _ hLast
  have hstar : entity = eLast ↔ j = s.mSize - 1 := by
    constructor
    · intro he
      rw [he, he2iLast] at hl
      injection hl with hj1
      omega
    · intro hje
      rw [hje, hLast] at hi2ej
      injection hi2ej with he1
      exact he1.symm
  rw [removeData_eq hl hLast]
  set e2i2 := eraseA (setA s.mEntityToIndexMap eLast j) entity with he2i2
  set i2e2 := eraseA (setA s.mIndexToEntityMap j eLast) (s.mSize - 1) with hi2e2
  have hche : ∀ x, lookupA e2i2 x =
      if entity = x then none
      else if eLast = x then some j
      else lookupA s.mEntityToIndexMap x := by
    intro x
    rw [he2i2, lookupA_eraseA, lookupA_setA]
  have hchi : ∀ i, lookupA i2e2 i =
      if s.mSize - 1 = i then none
      else if j = i then some eLast
      else lookupA s.mIndexToEntityMap i := by
    intro i
    rw [hi2e2, lookupA_eraseA, lookupA_setA]
  have hsetALen : (setA s.mEntityToIndexMap eLast j).length =
      s.mEntityToIndexMap.length :=
    length_setA_of_lookup_some h.nodupKeys he2iLast
  have hsetANodup : (keysA (setA s.mEntityToIndexMap eLast j)).Nodup :=
    nodup_keysA_setA _ _ h.nodupKeys
  have hsetALook : lookupA (setA s.mEntityToIndexMap eLast j) entity = some j := by
    rw [lookupA_setA]
    by_cases he : eLast = entity
    · rw [if_pos he]
    · rw [if_neg he]; exact hl
  have hlen2 : e2i2.length + 1 = s.mEntityToIndexMap.length := by
    rw [he2i2]
    rw [length_eraseA_of_lookup_some hsetANodup hsetALook, hsetALen]
  refine ⟨rfl, ?_, rfl, ?_, ?_⟩
  · constructor
    · show s.mSize - 1 = e2i2.length
      have := h.sizeEq
      omega
    · intro x i hx
      show i < s.mSize - 1
      rw [hche] at hx
      by_cases hex : entity = x
      · rw [if_pos hex] at hx; exact absurd hx (by simp)
      · rw [if_neg hex] at hx
        by_cases hlx : eLast = x
        · rw [if_pos hlx] at hx
          injection hx with hij
          have hjne : j ≠ s.mSize - 1 := by
            intro hje
            exact hex (hstar.2 hje ▸ hlx ▸ rfl)
          omega
        · rw [if_neg hlx] at hx
          have hb := h.e2iBound x i hx
          have hine : i ≠ s.mSize - 1 := by
            intro hie
            have := h.e2iToI2e x i hx
            rw [hie, hLast] at this
            injection this with hxl
            exact hlx hxl
          omega
    · intro x i hx
      show lookupA i2e2 i = some x
      rw [hche] at hx
      rw [hchi]
      by_cases hex : entity = x
      · rw [if_pos hex] at hx; exact absurd hx (by simp)
      · rw [if_neg hex] at hx
        by_cases hlx : eLast = x
        · rw [if_pos hlx] at hx
          injection hx with hij
          have hjne : ¬(s.mSize - 1 = i) := by
            intro hje
            have hjl : j = s.mSize - 1 := by omega
            exact hex ((hstar.2 hjl).trans hlx)
          rw [if_neg hjne, if_pos hij, hlx]
        · rw [if_neg hlx] at hx
          have hine : ¬(s.mSize - 1 = i) := by
            intro hie
            have := h.e2iToI2e x i hx
            rw [← hie, hLast] at this
            injection this with hxl
            exact hlx hxl
          have hjne : ¬(j = i) := by
            intro hji
            have := h.e2iToI2e x i hx
            rw [← hji, hi2ej] at this
            injection this with hxe
            exact hex hxe
          rw [if_neg hine, if_neg hjne]
          exact h.e2iToI2e x i hx
    · intro i x hx
      show lookupA e2i2 x = some i
      rw [hchi] at hx
      rw [hche]
      by_cases hli : s.mSize - 1 = i
      · rw [if_pos hli] at hx; exact absurd hx (by simp)
      · rw [if_neg hli] at hx
        by_cases hji : j = i
        · rw [if_pos hji] at hx
          injection hx with hxl
          have hne : ¬(entity = x) := by
            intro hex
            have hent : entity = eLast := hex.trans hxl.symm
            have hjl := hstar.1 hent
            exact hli (by omega)
          rw [if_neg hne, if_pos hxl, hji]
        · rw [if_neg hji] at hx
          have hback := h.i2eToE2i i x hx
          have hne : ¬(entity = x) := by
            intro hex
            rw [← hex, hl] at hback
            injection hback with hji2
            exact hji hji2
          have hnl : ¬(eLast = x) := by
            intro hlx
            rw [← hlx, he2iLast] at hback
            injection hback with hli2
            exact hli hli2
          rw [if_neg hne, if_neg hnl]
          exact hback
    · intro i hi
      show ∃ e, lookupA i2e2 i = some e
      rw [hchi]
      have hine : ¬(s.mSize - 1 = i) := by
        change i < s.mSize - 1 at hi
        omega
      rw [if_neg hine]
      by_cases hji : j = i
      · exact ⟨eLast, by rw [if_pos hji]⟩
      · rw [if_neg hji]
        exact h.i2eCover i (by change i < s.mSize - 1 at hi; omega)
    · exact nodup_keysA_eraseA _ hsetANodup
    · show (s.mComponentArray.set j _).length = MAX_ENTITIES
      rw [List.length_set]
      exact h.arrLen
  · show lookupA e2i2 entity = none
    rw [hche, if_pos rfl]
  · intro x hx
    show x ∈ keysA s.mEntityToIndexMap
    have hsome := (lookupA_isSome_iff_mem_keysA e2i2 x).2 hx
    rw [hche] at hsome
    by_cases hex : entity = x
    · rw [if_pos hex] at hsome; simp at hsome
    · rw [if_neg hex] at hsome
      by_cases hlx : eLast = x
      · rw [← hlx]
        exact (lookupA_isSome_iff_mem_keysA _ _).1 (by rw [he2iLast]; rfl)
      · rw [if_neg hlx] at hsome
        exact (lookupA_isSome_iff_mem_keysA _ _).1 hsome

theorem removeData_untracked {A : Type} [Inhabited A] {s : ComponentArray A}
    {entity : Nat} (h : lookupA s.mEntityToIndexMap entity = none) :
    removeData s entity = (s, 1) := by
  unfold removeData
  rw [h]

theorem insertData_tracked {A : Type} {s : ComponentArray A} {entity : Nat}
    {j : Nat} (h : lookupA s.mEntityToIndexMap entity = some j) (v : A) :
    insertData s entity v = (s, 1) := by
  unfold insertData
  rw [h]

/-- Every sequence of operations preserves the density invariant, and every
tracked entity was either tracked at the start or inserted along the way. -/
theorem runCA_inv {A : Type} [Inhabited A] :
    ∀ (ops : List (CAOp A)) (s : ComponentArray A), CAInv s →
      CAInv (runCA s ops) ∧
      (∀ x, x ∈ keysA (runCA s ops).mEntityToIndexMap →
        x ∈ keysA s.mEntityToIndexMap ∨ x ∈ insertedOf ops) := by
  intro ops
  induction ops with
  | nil => intro s h; exact ⟨h, fun x hx => Or.inl hx⟩
  | cons op t ih =>
    intro s h
    cases op with
    | insert e v =>
      have hstep : runCA s (CAOp.insert e v :: t) = runCA (insertData s e v).1 t := rfl
      have hops : insertedOf (CAOp.insert e v :: t) = e :: insertedOf t := rfl
      rw [hstep, hops]
      cases hl : lookupA s.mEntityToIndexMap e with
      | some j =>
        have heq : (insertData s e v).1 = s := by rw [insertData_tracked hl]
        rw [heq]
        obtain ⟨h1, h2⟩ := ih s h
        refine ⟨h1, fun x hx => ?_⟩
        rcases h2 x hx with hk | hk
        · exact Or.inl hk
        · exact Or.inr (List.mem_cons_of_mem _ hk)
      | none =>
        obtain ⟨_, hinv, _, _, hkeys⟩ := insertData_inv h hl v
        obtain ⟨h1, h2⟩ := ih _ hinv
        refine ⟨h1, fun x hx => ?_⟩
        rcases h2 x hx with hk | hk
        · rw [hkeys] at hk
          rcases List.mem_append.1 hk with hk | hk
          · exact Or.inl hk
          · simp at hk
            exact Or.inr (by rw [hk]; exact List.mem_cons_self _ _)
        · exact Or.inr (List.mem_cons_of_mem _ hk)
    | remove e =>
      have hstep : runCA s (CAOp.remove e :: t) = runCA (removeData s e).1 t := rfl
      have hops : insertedOf (CAOp.remove e :: t) = insertedOf t := rfl
      rw [hstep, hops]
      cases hl : lookupA s.mEntityToIndexMap e with
      | none =>
        have heq : (removeData s e).1 = s := by rw [removeData_untracked hl]
        rw [heq]
        exact ih s h
      | some j =>
        obtain ⟨_, hinv, _, _, hsub⟩ := removeData_inv h hl
        obtain ⟨h1, h2⟩ := ih _ hinv
        refine ⟨h1, fun x hx => ?_⟩
        rcases h2 x hx with hk | hk
        · exact Or.inl (hsub x hk)
        · exact Or.inr hk
    | destroyed e =>
      have hstep : runCA s (CAOp.destroyed e :: t) = runCA (caEntityDestroyed s e) t := rfl
      have hops : insertedOf (CAOp.destroyed e :: t) = insertedOf t := rfl
      rw [hstep, hops]
      cases hl : lookupA s.mEntityToIndexMap e with
      | none =>
        have heq : caEntityDestroyed s e = s := by
          unfold caEntityDestroyed; rw [hl]
        rw [heq]
        exact ih s h
      | some j =>
        have heq : caEntityDestroyed s e = (removeData s e).1 := by
          unfold caEntityDestroyed; rw [hl]
        rw [heq]
        obtain ⟨_, hinv, _, _, hsub⟩ := removeData_inv h hl
        obtain ⟨h1, h2⟩ := ih _ hinv
        refine ⟨h1, fun x hx => ?_⟩
        rcases h2 x hx with hk | hk
        · exact Or.inl (hsub x hk)
        · exact Or.inr hk

/-- C4: after any sequence of insertData / removeData / entityDestroyed
operations on a fresh ComponentArray in which at most MAX_ENTITIES distinct
entities are ever inserted, the size equals the number of tracked entities and
stays at most MAX_ENTITIES, every tracked entity maps below the size, no dense
index is shared by two tracked entities, the two maps are mutually inverse over
the dense range, and every dense index below the size is occupied. -/
theorem componentArray_density_invariant (ops : List (CAOp Nat))
    (hbound : (insertedOf ops).dedup.length ≤ MAX_ENTITIES) :
    (runCA (caInit Nat) ops).mSize =
      (runCA (caInit Nat) ops).mEntityToIndexMap.length ∧
    (runCA (caInit Nat) ops).mSize ≤ MAX_ENTITIES ∧
    (∀ e i, lookupA (runCA (caInit Nat) ops).mEntityToIndexMap e = some i →
      i < (runCA (caInit Nat) ops).mSize) ∧
    (∀ e1 e2 i, lookupA (runCA (caInit Nat) ops).mEntityToIndexMap e1 = some i →
      lookupA (runCA (caInit Nat) ops).mEntityToIndexMap e2 = some i → e1 = e2) ∧
    (∀ e i, lookupA (runCA (caInit Nat) ops).mEntityToIndexMap e = some i ↔
      (i < (runCA (caInit Nat) ops).mSize ∧
        lookupA (runCA (caInit Nat) ops).mIndexToEntityMap i = some e)) ∧
    (∀ i, i < (runCA (caInit Nat) ops).mSize →
      ∃ e, lookupA (runCA (caInit Nat) ops).mIndexToEntityMap i = some e) := by
  obtain ⟨hinv, hkeys⟩ := runCA_inv ops (caInit Nat) (caInit_inv Nat)
  have hkeysIns : ∀ x, x ∈ keysA (runCA (caInit Nat) ops).mEntityToIndexMap →
      x ∈ insertedOf ops := by
    intro x hx
    rcases hkeys x hx with hk | hk
    · exact absurd hk (by simp [caInit])
    · exact hk
  refine ⟨hinv.sizeEq, ?_, hinv.e2iBound, ?_, ?_, hinv.i2eCover⟩
  · have hsub : keysA (runCA (caInit Nat) ops).mEntityToIndexMap ⊆
        (insertedOf ops).dedup := by
      intro x hx
      exact (List.mem_dedup).2 (hkeysIns x hx)
    have hle := (List.subperm_of_subset hinv.nodupKeys hsub).length_le
    have hlen : (keysA (runCA (caInit Nat) ops).mEntityToIndexMap).length =
        (runCA (caInit Nat) ops).mEntityToIndexMap.length := by
      unfold keysA
      exact List.length_map _ _
    rw [hinv.sizeEq, ← hlen]
    omega
  · intro e1 e2 i h1 h2
    have hi1 := hinv.e2iToI2e e1 i h1
    have hi2 := hinv.e2iToI2e e2 i h2
    rw [hi1] at hi2
    exact Option.some.inj hi2
  · intro e i
    constructor
    · intro hl
      exact ⟨hinv.e2iBound e i hl, hinv.e2iToI2e e i hl⟩
    · intro ⟨_, hl⟩
      exact hinv.i2eToE2i i e hl

/-- Witness for the C4 theorem at the concrete sequence
insert 3 7; insert 5 9; remove 3. -/
theorem componentArray_density_invariant_witness :
    (insertedOf [CAOp.insert 3 (7 : Nat), CAOp.insert 5 9,
      CAOp.remove 3]).dedup.length ≤ MAX_ENTITIES ∧
    ((runCA (caInit Nat) [CAOp.insert 3 7, CAOp.insert 5 9, CAOp.remove 3]).mSize =
      (runCA (caInit Nat) [CAOp.insert 3 7, CAOp.insert 5 9,
        CAOp.remove 3]).mEntityToIndexMap.length ∧
     (runCA (caInit Nat) [CAOp.insert 3 7, CAOp.insert 5 9,
        CAOp.remove 3]).mSize ≤ MAX_ENTITIES ∧
     (∀ e i, lookupA (runCA (caInit Nat) [CAOp.insert 3 7, CAOp.insert 5 9,
        CAOp.remove 3]).mEntityToIndexMap e = some i →
      i < (runCA (caInit Nat) [CAOp.insert 3 7, CAOp.insert 5 9,
        CAOp.remove 3]).mSize) ∧
     (∀ e1 e2 i, lookupA (runCA (caInit Nat) [CAOp.insert 3 7, CAOp.insert 5 9,
        CAOp.remove 3]).mEntityToIndexMap e1 = some i →
      lookupA (runCA (caInit Nat) [CAOp.insert 3 7, CAOp.insert 5 9,
        CAOp.remove 3]).mEntityToIndexMap e2 = some i → e1 = e2) ∧
     (∀ e i, lookupA (runCA (caInit Nat) [CAOp.insert 3 7, CAOp.insert 5 9,
        CAOp.remove 3]).mEntityToIndexMap e = some i ↔
      (i < (runCA (caInit Nat) [CAOp.insert 3 7, CAOp.insert 5 9,
        CAOp.remove 3]).mSize ∧
       lookupA (runCA (caInit Nat) [CAOp.insert 3 7, CAOp.insert 5 9,
        CAOp.remove 3]).mIndexToEntityMap i = some e)) ∧
     (∀ i, i < (runCA (caInit Nat) [CAOp.insert 3 7, CAOp.insert 5 9,
        CAOp.remove 3]).mSize →
      ∃ e, lookupA (runCA (caInit Nat) [CAOp.insert 3 7, CAOp.insert 5 9,
        CAOp.remove 3]).mIndexToEntityMap i = some e)) :=
  ⟨by decide, componentArray_density_invariant _ (by decide)⟩

/-- C5: insertData for an entity that already holds this component type logs
exactly one error and returns the state entirely unchanged (value, both maps,
and size included). -/
theorem duplicate_insert_rejected {A : Type} (s : ComponentArray A) (e : Nat)
    (v2 : A) (hdup : (lookupA s.mEntityToIndexMap e).isSome) :
    insertData s e v2 = (s, 1) := by
  cases hl : lookupA s.mEntityToIndexMap e with
  | none => rw [hl] at hdup; simp at hdup
  | some j => exact insertData_tracked hl v2

/-- Witness for the C5 theorem: inserting 9 for entity 3 after entity 3 already
holds value 7 changes nothing and logs one error. -/
theorem duplicate_insert_rejected_witness :
    (lookupA ((insertData (caInit Nat) 3 7).1).mEntityToIndexMap 3).isSome ∧
    insertData ((insertData (caInit Nat) 3 7).1) 3 9 =
      ((insertData (caInit Nat) 3 7).1, 1) :=
  ⟨by decide, duplicate_insert_rejected _ 3 9 (by decide)⟩

theorem bracketRead_fst (m : List (α × β)) (k : α) (d : β) :
    (bracketRead m k d).1 = (lookupA m k).getD d := by
  unfold bracketRead
  cases h : lookupA m k <;> simp

theorem bracketRead_snd_lookup (m : List (α × β)) (k k' : α) (d : β)
    (h : k ≠ k') :
    lookupA (bracketRead m k d).2 k' = lookupA m k' := by
  unfold bracketRead
  cases hm : lookupA m k with
  | some v => rfl
  | none =>
    show lookupA (m ++ [(k, d)]) k' = _
    rw [lookupA_append]
    cases hk : lookupA m k' with
    | some v => rfl
    | none => simp [h]

/-- Every notification fired by escLoop concerns the changed entity and a type
present among the processed systems. -/
theorem escLoop_notif_mem (entity : Nat) (signature : Signature) :
    ∀ (systems : List (Nat × SystemRec)) (sigs : List (Nat × Signature)) (n : Notif),
      n ∈ (escLoop entity signature systems sigs).2.2 →
      (∃ t, (n = Notif.registered t entity ∨ n = Notif.erased t entity) ∧
        t ∈ keysA systems) := by
  intro systems
  induction systems with
  | nil => intro sigs n hn; simp [escLoop] at hn
  | cons p rest ih =>
    obtain ⟨t, sys⟩ := p
    intro sigs n hn
    unfold escLoop at hn
    by_cases hm : sigMatches signature (bracketRead sigs t (∅ : Signature)).1
    · rw [if_pos hm] at hn
      rcases List.mem_cons.1 hn with hn | hn
      · exact ⟨t, Or.inl hn, by simp⟩
      · obtain ⟨t', ht', hmem⟩ := ih _ n hn
        exact ⟨t', ht', by simp [hmem]⟩
    · rw [if_neg hm] at hn
      rcases List.mem_cons.1 hn with hn | hn
      · exact ⟨t, Or.inr hn, by simp⟩
      · obtain ⟨t', ht', hmem⟩ := ih _ n hn
        exact ⟨t', ht', by simp [hmem]⟩

/-- Full characterization of escLoop on a registered type with duplicate-free
system keys: the system's new membership, and exactly which notification fires,
determined solely by the signature test (prior membership plays no role). -/
theorem escLoop_spec (entity : Nat) (signature : Signature) :
    ∀ (systems : List (Nat × SystemRec)) (sigs : List (Nat × Signature)),
      (keysA systems).Nodup →
      ∀ t sys, lookupA systems t = some sys →
        (lookupA (escLoop entity signature systems sigs).1 t =
          some (if sigMatches signature ((lookupA sigs t).getD ∅)
            then ⟨insertS sys.mEntities entity⟩
            else ⟨eraseS sys.mEntities entity⟩)) ∧
        (sigMatches signature ((lookupA sigs t).getD ∅) →
          Notif.registered t entity ∈ (escLoop entity signature systems sigs).2.2 ∧
          Notif.erased t entity ∉ (escLoop entity signature systems sigs).2.2) ∧
        (¬sigMatches signature ((lookupA sigs t).getD ∅) →
          Notif.erased t entity ∈ (escLoop entity signature systems sigs).2.2 ∧
          Notif.registered t entity ∉ (escLoop entity signature systems sigs).2.2) := by
  intro systems
  induction systems with
  | nil => intro sigs _ t sys hl; simp at hl
  | cons p rest ih =>
    obtain ⟨t', sys'⟩ := p
    intro sigs hnodup t sys hl
    rw [keysA_cons, List.nodup_cons] at hnodup
    rw [lookupA_cons] at hl
    by_cases ht : t' = t
    · subst ht
      rw [if_pos rfl] at hl
      injection hl with hsys
      subst hsys
      have hreq : (bracketRead sigs t' (∅ : Signature)).1 =
          (lookupA sigs t').getD ∅ := bracketRead_fst _ _ _
      have hnotin : ∀ n ∈ (escLoop entity signature rest
          (bracketRead sigs t' (∅ : Signature)).2).2.2,
          (n ≠ Notif.registered t' entity ∧ n ≠ Notif.erased t' entity) := by
        intro n hn
        obtain ⟨t2, ht2, hmem⟩ := escLoop_notif_mem entity signature rest _ n hn
        have ht2ne : t2 ≠ t' := fun he => hnodup.1 (he ▸ hmem)
        constructor
        · intro hc
          rcases ht2 with h2 | h2 <;> subst h2
          · injection hc with hc1 hc2; exact ht2ne hc1
          · injection hc
        · intro hc
          rcases ht2 with h2 | h2 <;> subst h2
          · injection hc
          · injection hc with hc1 hc2; exact ht2ne hc1
      unfold escLoop
      by_cases hm : sigMatches signature ((lookupA sigs t').getD ∅)
      · rw [if_pos (by rw [hreq]; exact hm)]
        refine ⟨?_, ?_, ?_⟩
        · rw [lookupA_cons, if_pos rfl, if_pos hm]
        · intro _
          refine ⟨List.mem_cons_self _ _, ?_⟩
          intro hc
          rcases List.mem_cons.1 hc with hc | hc
          · exact absurd hc.symm (by intro hcc; injection hcc)
          · exact (hnotin _ hc).2 rfl
        · intro hmc; exact absurd hm hmc
      · rw [if_neg (by rw [hreq]; exact hm)]
        refine ⟨?_, ?_, ?_⟩
        · rw [lookupA_cons, if_pos rfl, if_neg hm]
        · intro hmc; exact absurd hmc hm
        · intro _
          refine ⟨List.mem_cons_self _ _, ?_⟩
          intro hc
          rcases List.mem_cons.1 hc with hc | hc
          · exact absurd hc.symm (by intro hcc; injection hcc)
          · exact (hnotin _ hc).1 rfl
    · rw [if_neg ht] at hl
      have hlook : lookupA (bracketRead sigs t' (∅ : Signature)).2 t =
          lookupA sigs t := bracketRead_snd_lookup _ _ _ _ ht
      obtain ⟨hres, hpos, hneg⟩ :=
        ih (bracketRead sigs t' (∅ : Signature)).2 hnodup.2 t sys hl
      rw [hlook] at hres hpos hneg
      unfold escLoop
      by_cases hm : sigMatches signature (bracketRead sigs t' (∅ : Signature)).1
      · rw [if_pos hm]
        refine ⟨by rw [lookupA_cons, if_neg ht]; exact hres, ?_, ?_⟩
        · intro hmc
          obtain ⟨h1, h2⟩ := hpos hmc
          refine ⟨List.mem_cons_of_mem _ h1, ?_⟩
          intro hc
          rcases List.mem_cons.1 hc with hc | hc
          · injection hc
          · exact h2 hc
        · intro hmc
          obtain ⟨h1, h2⟩ := hneg hmc
          refine ⟨List.mem_cons_of_mem _ h1, ?_⟩
          intro hc
          rcases List.mem_cons.1 hc with hc | hc
          · injection hc with hc1 hc2; exact ht hc1.symm
          · exact h2 hc
      · rw [if_neg hm]
        refine ⟨by rw [lookupA_cons, if_neg ht]; exact hres, ?_, ?_⟩
        · intro hmc
          obtain ⟨h1, h2⟩ := hpos hmc
          refine ⟨List.mem_cons_of_mem _ h1, ?_⟩
          intro hc
          rcases List.mem_cons.1 hc with hc | hc
          · injection hc with hc1 hc2; exact ht hc1.symm
          · exact h2 hc
        · intro hmc
          obtain ⟨h1, h2⟩ := hneg hmc
          refine ⟨List.mem_cons_of_mem _ h1, ?_⟩
          intro hc
          rcases List.mem_cons.1 hc with hc | hc
          · injection hc
          · exact h2 hc

/-- C6 counterexample: system type 0 requires the empty signature and entity 5 is
already a member; entitySignatureChanged(5, empty) nevertheless fires
entityRegistered again (the source calls system->entityRegistered(entity)
unconditionally on a match). The first three conjuncts show the state is
reachable: register the system, record its signature, let entity 5 join. -/
theorem entityRegistered_refires_counterexample :
    registerSystem smInit 0 =
      some { mSignatures := [], mSystems := [(0, ⟨[]⟩)] } ∧
    smSetSignature { mSignatures := [], mSystems := [(0, ⟨[]⟩)] } 0 ∅ =
      ({ mSignatures := [(0, ∅)], mSystems := [(0, ⟨[]⟩)] }, 0) ∧
    entitySignatureChanged
        { mSignatures := [(0, ∅)], mSystems := [(0, ⟨[]⟩)] } 5 ∅ =
      ({ mSignatures := [(0, ∅)], mSystems := [(0, ⟨[5]⟩)] },
        [Notif.registered 0 5]) ∧
    5 ∈ (SystemRec.mk [5]).mEntities ∧
    entitySignatureChanged
        { mSignatures := [(0, ∅)], mSystems := [(0, ⟨[5]⟩)] } 5 ∅ =
      ({ mSignatures := [(0, ∅)], mSystems := [(0, ⟨[5]⟩)] },
        [Notif.registered 0 5]) := by
  refine ⟨by decide, by decide, by decide, by decide, by decide⟩

/-- Shared consequence of escLoop_spec at the level of entitySignatureChanged:
on a match the registered notification fires, the erased one does not, and the
entity is inserted into the membership set. -/
theorem esc_match_registers (sm : SystemManager) (e : Nat)
    (sig : Signature) (t : Nat) (sys : SystemRec)
    (hnodup : (keysA sm.mSystems).Nodup)
    (hsys : lookupA sm.mSystems t = some sys)
    (hmatch : sigMatches sig ((lookupA sm.mSignatures t).getD ∅)) :
    Notif.registered t e ∈ (entitySignatureChanged sm e sig).2 ∧
    Notif.erased t e ∉ (entitySignatureChanged sm e sig).2 ∧
    lookupA ((entitySignatureChanged sm e sig).1).mSystems t =
      some ⟨insertS sys.mEntities e⟩ := by
  obtain ⟨hres, hpos, _⟩ :=
    escLoop_spec e sig sm.mSystems sm.mSignatures hnodup t sys hsys
  obtain ⟨h1, h2⟩ := hpos hmatch
  refine ⟨h1, h2, ?_⟩
  have hsys2 : ((entitySignatureChanged sm e sig).1).mSystems =
      (escLoop e sig sm.mSystems sm.mSignatures).1 := rfl
  rw [hsys2, hres, if_pos hmatch]

/-- C6 (amended): during entitySignatureChanged(e, sig), for each registered
system whose required signature (defaulting to empty if never set) is satisfied
by sig, the entityRegistered notification fires unconditionally -- whether or not
e was already a member -- and e ends up in the membership set; entityErased never
fires for that system on that call. -/
theorem entityRegistered_fires_on_every_match (sm : SystemManager) (e : Nat)
    (sig : Signature) (t : Nat) (sys : SystemRec)
    (hnodup : (keysA sm.mSystems).Nodup)
    (hsys : lookupA sm.mSystems t = some sys)
    (hmatch : sigMatches sig ((lookupA sm.mSignatures t).getD ∅)) :
    Notif.registered t e ∈ (entitySignatureChanged sm e sig).2 ∧
    Notif.erased t e ∉ (entitySignatureChanged sm e sig).2 ∧
    lookupA ((entitySignatureChanged sm e sig).1).mSystems t =
      some ⟨insertS sys.mEntities e⟩ :=
  esc_match_registers sm e sig t sys hnodup hsys hmatch

/-- Witness for the amended C6 theorem: entity 5 is already a member and the
notification still fires. -/
theorem entityRegistered_fires_on_every_match_witness :
    ((keysA smMember5.mSystems).Nodup ∧
      lookupA smMember5.mSystems 0 = some (SystemRec.mk [5]) ∧
      sigMatches ∅ ((lookupA smMember5.mSignatures 0).getD ∅)) ∧
    (Notif.registered 0 5 ∈ (entitySignatureChanged smMember5 5 ∅).2 ∧
      Notif.erased 0 5 ∉ (entitySignatureChanged smMember5 5 ∅).2 ∧
      lookupA ((entitySignatureChanged smMember5 5 ∅).1).mSystems 0 =
        some (SystemRec.mk (insertS (SystemRec.mk [5]).mEntities 5))) :=
  ⟨⟨by decide, by decide, by decide⟩,
    entityRegistered_fires_on_every_match smMember5 5 ∅ 0 (SystemRec.mk [5])
      (by decide) (by decide) (by decide)⟩

/-- C7 counterexample: after registering system type 0 and recording signature
bit-set 1 for it, a second setSignature call with bit-set 2 is silently ignored
(flat_hash_map::insert does not overwrite): the recorded signature stays 1,
refuting the claim that the recorded signature always equals the last argument. -/
theorem setSignature_no_overwrite_counterexample :
    registerSystem smInit 0 = some smReg0 ∧
    smSetSignature smReg0 0 {1} = (smSig1, 0) ∧
    smSetSignature smSig1 0 {2} = (smSig1, 0) ∧
    lookupA (smSetSignature smSig1 0 {2}).1.mSignatures 0 = some {1} ∧
    ({1} : Signature) ≠ {2} := by
  refine ⟨by decide, by decide, by decide, by decide, by decide⟩

/-- C7 (amended): setSignature<T>(sig) records sig if T is registered and no
signature was recorded for T before; if one was already recorded, the call is a
silent no-op that leaves the old signature in place (flat_hash_map::insert does
not overwrite); if T was never registered, an error is logged and nothing
changes. -/
theorem setSignature_records_only_first (sm : SystemManager) (t : Nat)
    (sig : Signature) :
    (lookupA sm.mSystems t = none → smSetSignature sm t sig = (sm, 1)) ∧
    (∀ sys, lookupA sm.mSystems t = some sys → lookupA sm.mSignatures t = none →
      smSetSignature sm t sig =
        ({ sm with mSignatures := sm.mSignatures ++ [(t, sig)] }, 0) ∧
      lookupA (smSetSignature sm t sig).1.mSignatures t = some sig) ∧
    (∀ sys old, lookupA sm.mSystems t = some sys →
      lookupA sm.mSignatures t = some old →
      smSetSignature sm t sig = (sm, 0)) := by
  refine ⟨?_, ?_, ?_⟩
  · intro hnone
    unfold smSetSignature
    rw [hnone]
  · intro sys hsys hnone
    have heq : smSetSignature sm t sig =
        ({ sm with mSignatures := sm.mSignatures ++ [(t, sig)] }, 0) := by
      unfold smSetSignature
      rw [hsys]
      unfold insertA
      rw [hnone]
    refine ⟨heq, ?_⟩
    rw [heq]
    show lookupA (sm.mSignatures ++ [(t, sig)]) t = some sig
    rw [lookupA_append, hnone]
    simp
  · intro sys old hsys hold
    unfold smSetSignature
    rw [hsys]
    unfold insertA
    rw [hold]

/-- Witness for the amended C7 theorem: the first setSignature records, the
second (different) one is ignored, and an unregistered type is a logged no-op. -/
theorem setSignature_records_only_first_witness :
    smSetSignature smReg0 0 {1} = (smSig1, 0) ∧
    smSetSignature smSig1 0 {2} = (smSig1, 0) ∧
    smSetSignature smInit 9 {1} = (smInit, 1) := by
  refine ⟨?_, ?_, ?_⟩
  · exact ((setSignature_records_only_first smReg0 0 {1}).2.1 (SystemRec.mk [])
      (by decide) (by decide)).1
  · exact (setSignature_records_only_first smSig1 0 {2}).2.2 (SystemRec.mk [])
      {1} (by decide) (by decide)
  · exact (setSignature_records_only_first smInit 9 {1}).1 (by decide)

/-- C10: for a registered system type with no recorded signature,
entitySignatureChanged inserts the entity into that system's membership for every
entity and every signature (the operator[] read of the missing signature
default-constructs the empty bitmask, which every signature satisfies). -/
theorem missing_signature_treated_as_empty (sm : SystemManager) (e : Nat)
    (sig : Signature) (t : Nat) (sys : SystemRec)
    (hnodup : (keysA sm.mSystems).Nodup)
    (hsys : lookupA sm.mSystems t = some sys)
    (hnosig : lookupA sm.mSignatures t = none) :
    lookupA ((entitySignatureChanged sm e sig).1).mSystems t =
      some (SystemRec.mk (insertS sys.mEntities e)) ∧
    e ∈ (SystemRec.mk (insertS sys.mEntities e)).mEntities ∧
    Notif.registered t e ∈ (entitySignatureChanged sm e sig).2 := by
  have hmatch : sigMatches sig ((lookupA sm.mSignatures t).getD ∅) := by
    rw [hnosig]
    show sigMatches sig ∅
    unfold sigMatches
    exact Finset.inter_empty sig
  obtain ⟨h1, h2, h3⟩ :=
    esc_match_registers sm e sig t sys hnodup hsys hmatch
  exact ⟨h3, by simp, h1⟩

/-- Witness for the C10 theorem: system 7 registered, no signature ever set,
entity 3 with signature bit-set 5 is inserted. -/
theorem missing_signature_treated_as_empty_witness :
    ((keysA smReg7.mSystems).Nodup ∧
      lookupA smReg7.mSystems 7 = some (SystemRec.mk []) ∧
      lookupA smReg7.mSignatures 7 = none) ∧
    (lookupA ((entitySignatureChanged smReg7 3 {5}).1).mSystems 7 =
      some (SystemRec.mk (insertS (SystemRec.mk []).mEntities 3)) ∧
      3 ∈ (SystemRec.mk (insertS (SystemRec.mk []).mEntities 3)).mEntities ∧
      Notif.registered 7 3 ∈ (entitySignatureChanged smReg7 3 {5}).2) :=
  ⟨⟨by decide, by decide, by decide⟩,
    missing_signature_treated_as_empty smReg7 3 {5} 7 (SystemRec.mk [])
      (by decide) (by decide) (by decide)⟩

/-- C9: for a registered resource type T and any key k: after setResource(k, p),
getResource(k) returns exactly p; after deleteResource(k) the mapping for k is
removed while no pointee is freed (the ghost freedPointers trace is unchanged),
and a subsequent getResource(k) succeeds and returns the null default 0 rather
than an error. -/
theorem resource_set_get_delete (rm : ResourceManager) (t : Nat) (k : String)
    (p : Nat) (arr : ResourceArray)
    (hreg : lookupA rm.resourceArrays t = some arr) :
    ∃ rm1, rmSetResource rm t k p = some rm1 ∧
      (∃ rm1b, rmGetResource rm1 t k = some (p, rm1b)) ∧
      ∃ rm2, rmDeleteResource rm1 t k = some rm2 ∧
        (∃ arr2, lookupA rm2.resourceArrays t = some arr2 ∧
          lookupA arr2.data k = none ∧
          arr2.freedPointers = arr.freedPointers) ∧
        ∃ rm3, rmGetResource rm2 t k = some (0, rm3) := by
  have hga : getResourceArray rm t = some arr := hreg
  have hset : rmSetResource rm t k p =
      some (ResourceManager.mk (setA rm.resourceArrays t (raSetResource arr k p))) := by
    unfold rmSetResource
    rw [hga]
  refine ⟨_, hset, ?_, ?_⟩
  · have hga1 : getResourceArray
        (ResourceManager.mk (setA rm.resourceArrays t (raSetResource arr k p)))
        t = some (raSetResource arr k p) := by
      unfold getResourceArray
      show lookupA (setA rm.resourceArrays t (raSetResource arr k p)) t = _
      rw [lookupA_setA, if_pos rfl]
    have hbr : bracketRead (raSetResource arr k p).data k 0 =
        (p, (raSetResource arr k p).data) := by
      refine bracketRead_present 0 ?_
      show lookupA (setA arr.data k p) k = some p
      rw [lookupA_setA, if_pos rfl]
    have hra : raGetResource (raSetResource arr k p) k =
        (p, raSetResource arr k p) := by
      unfold raGetResource
      simp only [hbr]
    refine ⟨ResourceManager.mk (setA (setA rm.resourceArrays t
      (raSetResource arr k p)) t (raSetResource arr k p)), ?_⟩
    unfold rmGetResource
    rw [hga1]
    show some ((raGetResource (raSetResource arr k p) k).1,
      ResourceManager.mk (setA (setA rm.resourceArrays t (raSetResource arr k p))
        t (raGetResource (raSetResource arr k p) k).2)) = _
    rw [hra]
  · have hga1 : getResourceArray
        (ResourceManager.mk (setA rm.resourceArrays t (raSetResource arr k p)))
        t = some (raSetResource arr k p) := by
      unfold getResourceArray
      show lookupA (setA rm.resourceArrays t (raSetResource arr k p)) t = _
      rw [lookupA_setA, if_pos rfl]
    have hdel : rmDeleteResource
        (ResourceManager.mk (setA rm.resourceArrays t (raSetResource arr k p)))
        t k = some (ResourceManager.mk
          (setA (setA rm.resourceArrays t (raSetResource arr k p)) t
            (raDeleteResource (raSetResource arr k p) k))) := by
      unfold rmDeleteResource
      rw [hga1]
    refine ⟨_, hdel, ?_, ?_⟩
    · refine ⟨raDeleteResource (raSetResource arr k p) k, ?_, ?_, rfl⟩
      · show lookupA (setA (setA rm.resourceArrays t (raSetResource arr k p)) t
          (raDeleteResource (raSetResource arr k p) k)) t = _
        rw [lookupA_setA, if_pos rfl]
      · show lookupA (eraseA (setA arr.data k p) k) k = none
        rw [lookupA_eraseA, if_pos rfl]
    · have hga2 : getResourceArray
          (ResourceManager.mk
            (setA (setA rm.resourceArrays t (raSetResource arr k p)) t
              (raDeleteResource (raSetResource arr k p) k))) t =
          some (raDeleteResource (raSetResource arr k p) k) := by
        unfold getResourceArray
        show lookupA (setA _ t _) t = _
        rw [lookupA_setA, if_pos rfl]
      have hmiss : lookupA (raDeleteResource (raSetResource arr k p) k).data k =
          none := by
        show lookupA (eraseA (setA arr.data k p) k) k = none
        rw [lookupA_eraseA, if_pos rfl]
      have hbr2 : bracketRead (raDeleteResource (raSetResource arr k p) k).data
          k 0 = (0, (raDeleteResource (raSetResource arr k p) k).data ++ [(k, 0)]) := by
        unfold bracketRead
        rw [hmiss]
      have hra2 : raGetResource (raDeleteResource (raSetResource arr k p) k) k =
          (0, ResourceArray.mk
            ((raDeleteResource (raSetResource arr k p) k).data ++ [(k, 0)])
            (raDeleteResource (raSetResource arr k p) k).freedPointers) := by
        unfold raGetResource
        simp only [hbr2]
      refine ⟨ResourceManager.mk (setA (setA (setA rm.resourceArrays t
        (raSetResource arr k p)) t (raDeleteResource (raSetResource arr k p) k)) t
        (ResourceArray.mk
          ((raDeleteResource (raSetResource arr k p) k).data ++ [(k, 0)])
          (raDeleteResource (raSetResource arr k p) k).freedPointers)), ?_⟩
      unfold rmGetResource
      rw [hga2]
      show some ((raGetResource (raDeleteResource (raSetResource arr k p) k) k).1,
        ResourceManager.mk (setA (setA (setA rm.resourceArrays t
          (raSetResource arr k p)) t (raDeleteResource (raSetResource arr k p) k)) t
          (raGetResource (raDeleteResource (raSetResource arr k p) k) k).2)) = _
      rw [hra2]

/-- Witness for the C9 theorem: type 4 registered, key "main", pointer 42. -/
theorem resource_set_get_delete_witness :
    lookupA ((registerResourceType rmInit 4).1).resourceArrays 4 = some raInit ∧
    (∃ rm1, rmSetResource (registerResourceType rmInit 4).1 4 "main" 42 =
        some rm1 ∧
      (∃ rm1b, rmGetResource rm1 4 "main" = some (42, rm1b)) ∧
      ∃ rm2, rmDeleteResource rm1 4 "main" = some rm2 ∧
        (∃ arr2, lookupA rm2.resourceArrays 4 = some arr2 ∧
          lookupA arr2.data "main" = none ∧
          arr2.freedPointers = raInit.freedPointers) ∧
        ∃ rm3, rmGetResource rm2 4 "main" = some (0, rm3)) :=
  ⟨by decide, resource_set_get_delete _ 4 "main" 42 raInit (by decide)⟩

/-- C1 counterexample: register a system requiring the empty signature, then
createEntity. Entity 0 is live with the empty signature, which is a superset of
the system's required signature, yet the system's membership set is empty:
createEntity performs no membership re-evaluation, so membership is stale right
after a mutating Coordinator call. -/
theorem membership_stale_after_createEntity_counterexample :
    ∃ c1 c3,
      coordRegisterSystem coordInit 0 = some c1 ∧
      coordCreateEntity (coordSetSystemSignature c1 0 ∅).1 = some (0, c3) ∧
      0 ∈ c3.pEntityManager.mExistingEntities ∧
      (c3.pEntityManager.getSignature 0).1 = some ∅ ∧
      sigMatches ∅ ((lookupA c3.pSystemManager.mSignatures 0).getD ∅) ∧
      lookupA c3.pSystemManager.mSystems 0 = some (SystemRec.mk []) ∧
      0 ∉ (SystemRec.mk []).mEntities := by
  refine ⟨_, _, rfl, rfl, ?_, ?_, ?_, ?_, ?_⟩
  · decide
  · decide
  · decide
  · decide
  · decide

theorem lookupA_map_values {γ : Type} (f : β → γ) (m : List (α × β)) (k : α) :
    lookupA (m.map (fun p => (p.1, f p.2))) k = (lookupA m k).map f := by
  induction m with
  | nil => rfl
  | cons p tl ih =>
    obtain ⟨k', v⟩ := p
    by_cases h : k' = k <;> simp [h, ih]

/-- entitySignatureChanged leaves each registered system with the entity as a
member exactly when the signature matches, and leaves every other entity's
membership unchanged. -/
theorem esc_membership (sm : SystemManager) (e : Nat) (sig : Signature)
    (hnodup : (keysA sm.mSystems).Nodup) (st : Nat) (sys : SystemRec)
    (hsys : lookupA sm.mSystems st = some sys) :
    ∃ sys', lookupA ((entitySignatureChanged sm e sig).1).mSystems st =
        some sys' ∧
      (e ∈ sys'.mEntities ↔
        sigMatches sig ((lookupA sm.mSignatures st).getD ∅)) ∧
      (∀ x, x ≠ e → (x ∈ sys'.mEntities ↔ x ∈ sys.mEntities)) := by
  obtain ⟨hres, _, _⟩ :=
    escLoop_spec e sig sm.mSystems sm.mSignatures hnodup st sys hsys
  have hsm : ((entitySignatureChanged sm e sig).1).mSystems =
      (escLoop e sig sm.mSystems sm.mSignatures).1 := rfl
  by_cases hm : sigMatches sig ((lookupA sm.mSignatures st).getD ∅)
  · refine ⟨SystemRec.mk (insertS sys.mEntities e), ?_, ?_, ?_⟩
    · rw [hsm, hres, if_pos hm]
    · simp [hm]
    · intro x hx
      simp [hx]
  · refine ⟨SystemRec.mk (eraseS sys.mEntities e), ?_, ?_, ?_⟩
    · rw [hsm, hres, if_neg hm]
    · simp [hm]
    · intro x hx
      simp [hx]

/-- C1 (amended): membership is re-evaluated for the affected entity by
addComponent, removeComponent and destroyEntity, and by nothing else:
createEntity, registerSystem and setSystemSignature leave all memberships
untouched, so the global membership invariant claimed by the spec holds only
after component changes and destruction, not after every mutating call. -/
theorem membership_sync_after_component_change (c : Coordinator) (t e v : Nat)
    (hnodup : (keysA c.pSystemManager.mSystems).Nodup) :
    MembershipSyncSpec c t e v := by
  refine ⟨?_, ?_, ?_, ?_, ?_, ?_⟩
  · intro c' notifs heq
    unfold coordAddComponent at heq
    cases h1 : cmAddComponent c.pComponentManager t e v with
    | none => simp [h1] at heq
    | some pr =>
      obtain ⟨cm, errs⟩ := pr
      cases h2 : (c.pEntityManager.getSignature e).1 with
      | none => simp [h1, h2] at heq
      | some sig0 =>
        cases h3 : getComponentType cm t with
        | none => simp [h1, h2, h3] at heq
        | some ct =>
          simp only [h1, h2, h3, Option.some.injEq, Prod.mk.injEq] at heq
          obtain ⟨hc', hnotifs⟩ := heq
          refine ⟨sig0, ct, rfl, ?_, ?_⟩
          · rw [← hc']
            exact h3
          · intro st sys hsys
            obtain ⟨sys', hl, hmem, hother⟩ :=
              esc_membership c.pSystemManager e (sigSet sig0 ct true)
                hnodup st sys hsys
            refine ⟨sys', ?_, hmem, hother⟩
            rw [← hc']
            exact hl
  · intro c' notifs heq
    unfold coordRemoveComponent at heq
    cases h1 : cmRemoveComponent c.pComponentManager t e with
    | none => simp [h1] at heq
    | some pr =>
      obtain ⟨cm, errs⟩ := pr
      cases h2 : (c.pEntityManager.getSignature e).1 with
      | none => simp [h1, h2] at heq
      | some sig0 =>
        cases h3 : getComponentType cm t with
        | none => simp [h1, h2, h3] at heq
        | some ct =>
          simp only [h1, h2, h3, Option.some.injEq, Prod.mk.injEq] at heq
          obtain ⟨hc', hnotifs⟩ := heq
          refine ⟨sig0, ct, rfl, ?_, ?_⟩
          · rw [← hc']
            exact h3
          · intro st sys hsys
            obtain ⟨sys', hl, hmem, hother⟩ :=
              esc_membership c.pSystemManager e (sigSet sig0 ct false)
                hnodup st sys hsys
            refine ⟨sys', ?_, hmem, hother⟩
            rw [← hc']
            exact hl
  · intro st sys' hl
    have hmap := lookupA_map_values
      (fun sys : SystemRec => SystemRec.mk (eraseS sys.mEntities e))
      c.pSystemManager.mSystems st
    have hl2 : (lookupA c.pSystemManager.mSystems st).map
        (fun sys : SystemRec => SystemRec.mk (eraseS sys.mEntities e)) =
        some sys' := by
      rw [← hmap]
      exact hl
    replace hl := hl2
    cases hl0 : lookupA c.pSystemManager.mSystems st with
    | none => simp [hl0] at hl
    | some sys0 =>
      rw [hl0] at hl
      simp at hl
      rw [← hl]
      simp
  · intro id c' heq
    unfold coordCreateEntity at heq
    cases h1 : c.pEntityManager.createEntity with
    | none => simp [h1] at heq
    | some pr =>
      obtain ⟨id0, em⟩ := pr
      simp only [h1, Option.some.injEq, Prod.mk.injEq] at heq
      rw [← heq.2]
  · intro sig
    unfold coordSetSystemSignature smSetSignature
    cases h1 : lookupA c.pSystemManager.mSystems t with
    | none => simp [h1]
    | some sys => simp [h1]
  · intro c' heq
    unfold coordRegisterSystem registerSystem at heq
    cases h1 : lookupA c.pSystemManager.mSystems t with
    | some sys => simp [h1] at heq
    | none =>
      simp only [h1, Option.some.injEq] at heq
      have hsm : c'.pSystemManager.mSystems =
          insertA c.pSystemManager.mSystems t (SystemRec.mk []) := by
        rw [← heq]
      have hins : insertA c.pSystemManager.mSystems t (SystemRec.mk []) =
          c.pSystemManager.mSystems ++ [(t, SystemRec.mk [])] := by
        unfold insertA
        rw [h1]
      constructor
      · rw [hsm, hins, lookupA_append, h1]
        simp
      · intro st hst
        rw [hsm, hins, lookupA_append]
        cases h2 : lookupA c.pSystemManager.mSystems st with
        | some sys => simp
        | none =>
          simp only [Option.orElse]
          rw [lookupA_cons]
          rw [if_neg (fun hh => hst hh.symm)]
          simp

/-- Witness for the amended C1 theorem at the concrete coordinator coordW with
component type 0, entity 3, value 7. -/
theorem membership_sync_after_component_change_witness :
    (keysA coordW.pSystemManager.mSystems).Nodup ∧
    MembershipSyncSpec coordW 0 3 7 :=
  ⟨by decide, membership_sync_after_component_change coordW 0 3 7 (by decide)⟩

theorem getSignature_lt {s : EntityManager} {e : Nat} (he : e < MAX_ENTITIES) :
    s.getSignature e = (s.mSignatures.get? e, 0) := by
  unfold EntityManager.getSignature
  rw [if_neg (by omega)]

theorem setSignature_lt {s : EntityManager} {e : Nat} (he : e < MAX_ENTITIES)
    (sig : Signature) :
    s.setSignature e sig =
      ({ s with mSignatures := s.mSignatures.set e sig }, 0) := by
  unfold EntityManager.setSignature
  rw [if_neg (by omega)]

theorem insertData_eq {A : Type} {s : ComponentArray A} {e : Nat}
    (hfree : lookupA s.mEntityToIndexMap e = none) (v : A) :
    insertData s e v =
      (ComponentArray.mk (s.mComponentArray.set s.mSize v)
        (setA s.mEntityToIndexMap e s.mSize)
        (setA s.mIndexToEntityMap s.mSize e) (s.mSize + 1), 0) := by
  unfold insertData
  rw [hfree]

theorem getData_tracked {A : Type} [Inhabited A] {s : ComponentArray A}
    {e i : Nat} (h : lookupA s.mEntityToIndexMap e = some i) :
    getData s e = some (s.mComponentArray.getD i default) := by
  unfold getData
  rw [h]

theorem getData_untracked {A : Type} [Inhabited A] {s : ComponentArray A}
    {e : Nat} (h : lookupA s.mEntityToIndexMap e = none) :
    getData s e = none := by
  unfold getData
  rw [h]

theorem getComponentArray_eq {cm : ComponentManager} {t ct : Nat}
    {arr : ComponentArray Nat}
    (hct : lookupA cm.mComponentTypes t = some ct)
    (harr : lookupA cm.mComponentArrays t = some arr) :
    getComponentArray cm t = some arr := by
  unfold getComponentArray
  rw [hct]
  exact harr

theorem getComponentArray_of_types {cm : ComponentManager} {t ct : Nat}
    (hct : lookupA cm.mComponentTypes t = some ct) :
    getComponentArray cm t = lookupA cm.mComponentArrays t := by
  unfold getComponentArray
  rw [hct]

/-- C3: for an in-range entity e and registered component type t (with id ct and
a well-formed array with room) that e does not yet hold: addComponent stores v
(getComponent returns it) and sets bit ct in e's signature; a subsequent
removeComponent clears bit ct and a getComponent after that is fatal (none), all
without any recoverable-error log on the add path. -/
theorem add_get_remove_component (c : Coordinator) (t e v ct : Nat)
    (arr : ComponentArray Nat)
    (hct : lookupA c.pComponentManager.mComponentTypes t = some ct)
    (harr : lookupA c.pComponentManager.mComponentArrays t = some arr)
    (hinv : CAInv arr)
    (hfree : lookupA arr.mEntityToIndexMap e = none)
    (hsz : arr.mSize < MAX_ENTITIES)
    (he : e < MAX_ENTITIES)
    (hemlen : c.pEntityManager.mSignatures.length = MAX_ENTITIES) :
    coordGetComponentType c t = some ct ∧
    ∃ c1 n1, coordAddComponent c t e v = some (c1, n1) ∧
      coordGetComponent c1 t e = some v ∧
      (∃ sig1, (c1.pEntityManager.getSignature e).1 = some sig1 ∧ ct ∈ sig1) ∧
      ∃ c2 n2, coordRemoveComponent c1 t e = some (c2, n2) ∧
        (∃ sig2, (c2.pEntityManager.getSignature e).1 = some sig2 ∧ ct ∉ sig2) ∧
        coordGetComponent c2 t e = none := by
  have hge : e < c.pEntityManager.mSignatures.length := by
    rw [hemlen]; exact he
  obtain ⟨-, hinv1, -, hlook1, -⟩ := insertData_inv hinv hfree v
  have hga : getComponentArray c.pComponentManager t = some arr :=
    getComponentArray_eq hct harr
  have hadd : cmAddComponent c.pComponentManager t e v =
      some (ComponentManager.mk c.pComponentManager.mComponentTypes
        (setA c.pComponentManager.mComponentArrays t (insertData arr e v).1)
        c.pComponentManager.mNextComponentType, (insertData arr e v).2) := by
    unfold cmAddComponent
    rw [hga]
  have hsig0 : (c.pEntityManager.getSignature e).1 =
      some (c.pEntityManager.mSignatures.get ⟨e, hge⟩) := by
    rw [getSignature_lt he]
    exact List.get?_eq_get hge
  have hct1 : getComponentType (ComponentManager.mk
      c.pComponentManager.mComponentTypes
      (setA c.pComponentManager.mComponentArrays t (insertData arr e v).1)
      c.pComponentManager.mNextComponentType) t = some ct := hct
  have hcadd : coordAddComponent c t e v =
      some (Coordinator.mk
        (ComponentManager.mk c.pComponentManager.mComponentTypes
          (setA c.pComponentManager.mComponentArrays t (insertData arr e v).1)
          c.pComponentManager.mNextComponentType)
        (c.pEntityManager.setSignature e
          (sigSet (c.pEntityManager.mSignatures.get ⟨e, hge⟩) ct true)).1
        (entitySignatureChanged c.pSystemManager e
          (sigSet (c.pEntityManager.mSignatures.get ⟨e, hge⟩) ct true)).1
        c.pResourceManager,
        (entitySignatureChanged c.pSystemManager e
          (sigSet (c.pEntityManager.mSignatures.get ⟨e, hge⟩) ct true)).2) := by
    unfold coordAddComponent
    simp only [hadd, hsig0, hct1]
  refine ⟨hct, _, _, hcadd, ?_, ?_, ?_⟩
  · show cmGetComponent (ComponentManager.mk c.pComponentManager.mComponentTypes
      (setA c.pComponentManager.mComponentArrays t (insertData arr e v).1)
      c.pComponentManager.mNextComponentType) t e = some v
    unfold cmGetComponent
    have hctA : lookupA (ComponentManager.mk c.pComponentManager.mComponentTypes
        (setA c.pComponentManager.mComponentArrays t (insertData arr e v).1)
        c.pComponentManager.mNextComponentType).mComponentTypes t = some ct := hct
    rw [getComponentArray_of_types hctA]
    show (match lookupA (setA c.pComponentManager.mComponentArrays t
        (insertData arr e v).1) t with
      | none => none
      | some arr => getData arr e) = some v
    rw [lookupA_setA, if_pos rfl]
    show getData (insertData arr e v).1 e = some v
    rw [getData_tracked hlook1]
    have harr1 : (insertData arr e v).1.mComponentArray =
        arr.mComponentArray.set arr.mSize v := by
      rw [insertData_eq hfree v]
    rw [harr1]
    have hgetd : (arr.mComponentArray.set arr.mSize v).getD arr.mSize default = v := by
      show ((arr.mComponentArray.set arr.mSize v).get? arr.mSize).getD default = v
      rw [List.get?_set_eq_of_lt v (by rw [hinv.arrLen]; exact hsz)]
      rfl
    rw [hgetd]
  · refine ⟨sigSet (c.pEntityManager.mSignatures.get ⟨e, hge⟩) ct true, ?_, ?_⟩
    · show (((c.pEntityManager.setSignature e
        (sigSet (c.pEntityManager.mSignatures.get ⟨e, hge⟩) ct true)).1).getSignature e).1 =
        some (sigSet (c.pEntityManager.mSignatures.get ⟨e, hge⟩) ct true)
      rw [setSignature_lt he]
      rw [getSignature_lt he]
      show (c.pEntityManager.mSignatures.set e
        (sigSet (c.pEntityManager.mSignatures.get ⟨e, hge⟩) ct true)).get? e = _
      rw [List.get?_set_eq_of_lt _ hge]
    · show ct ∈ insert ct (c.pEntityManager.mSignatures.get ⟨e, hge⟩)
      exact Finset.mem_insert_self _ _
  · obtain ⟨-, hinv2, -, hnone2, -⟩ := removeData_inv hinv1 hlook1
    have hga1 : getComponentArray (ComponentManager.mk
        c.pComponentManager.mComponentTypes
        (setA c.pComponentManager.mComponentArrays t (insertData arr e v).1)
        c.pComponentManager.mNextComponentType) t = some (insertData arr e v).1 := by
      rw [getComponentArray_of_types hct1]
      show lookupA (setA c.pComponentManager.mComponentArrays t
        (insertData arr e v).1) t = _
      rw [lookupA_setA, if_pos rfl]
    have hrem : cmRemoveComponent (ComponentManager.mk
        c.pComponentManager.mComponentTypes
        (setA c.pComponentManager.mComponentArrays t (insertData arr e v).1)
        c.pComponentManager.mNextComponentType) t e =
        some (ComponentManager.mk c.pComponentManager.mComponentTypes
          (setA (setA c.pComponentManager.mComponentArrays t
            (insertData arr e v).1) t (removeData (insertData arr e v).1 e).1)
          c.pComponentManager.mNextComponentType,
          (removeData (insertData arr e v).1 e).2) := by
      unfold cmRemoveComponent
      rw [hga1]
    have hsig1 : (((c.pEntityManager.setSignature e
        (sigSet (c.pEntityManager.mSignatures.get ⟨e, hge⟩) ct true)).1).getSignature e).1 =
        some (sigSet (c.pEntityManager.mSignatures.get ⟨e, hge⟩) ct true) := by
      rw [setSignature_lt he]
      rw [getSignature_lt he]
      show (c.pEntityManager.mSignatures.set e
        (sigSet (c.pEntityManager.mSignatures.get ⟨e, hge⟩) ct true)).get? e = _
      rw [List.get?_set_eq_of_lt _ hge]
    have hct2 : getComponentType (ComponentManager.mk
        c.pComponentManager.mComponentTypes
        (setA (setA c.pComponentManager.mComponentArrays t
          (insertData arr e v).1) t (removeData (insertData arr e v).1 e).1)
        c.pComponentManager.mNextComponentType) t = some ct := hct
    have hcrem : coordRemoveComponent (Coordinator.mk
        (ComponentManager.mk c.pComponentManager.mComponentTypes
          (setA c.pComponentManager.mComponentArrays t (insertData arr e v).1)
          c.pComponentManager.mNextComponentType)
        (c.pEntityManager.setSignature e
          (sigSet (c.pEntityManager.mSignatures.get ⟨e, hge⟩) ct true)).1
        (entitySignatureChanged c.pSystemManager e
          (sigSet (c.pEntityManager.mSignatures.get ⟨e, hge⟩) ct true)).1
        c.pResourceManager) t e =
        some (Coordinator.mk
          (ComponentManager.mk c.pComponentManager.mComponentTypes
            (setA (setA c.pComponentManager.mComponentArrays t
              (insertData arr e v).1) t (removeData (insertData arr e v).1 e).1)
            c.pComponentManager.mNextComponentType)
          (((c.pEntityManager.setSignature e
            (sigSet (c.pEntityManager.mSignatures.get ⟨e, hge⟩) ct true)).1).setSignature e
            (sigSet (sigSet (c.pEntityManager.mSignatures.get ⟨e, hge⟩) ct true) ct false)).1
          (entitySignatureChanged (entitySignatureChanged c.pSystemManager e
            (sigSet (c.pEntityManager.mSignatures.get ⟨e, hge⟩) ct true)).1 e
            (sigSet (sigSet (c.pEntityManager.mSignatures.get ⟨e, hge⟩) ct true) ct false)).1
          c.pResourceManager,
          (entitySignatureChanged (entitySignatureChanged c.pSystemManager e
            (sigSet (c.pEntityManager.mSignatures.get ⟨e, hge⟩) ct true)).1 e
            (sigSet (sigSet (c.pEntityManager.mSignatures.get ⟨e, hge⟩) ct true) ct false)).2) := by
      unfold coordRemoveComponent
      simp only [hrem, hsig1, hct2]
    refine ⟨_, _, hcrem, ?_, ?_⟩
    · refine ⟨sigSet (sigSet (c.pEntityManager.mSignatures.get ⟨e, hge⟩) ct true)
        ct false, ?_, ?_⟩
      · show ((((c.pEntityManager.setSignature e
          (sigSet (c.pEntityManager.mSignatures.get ⟨e, hge⟩) ct true)).1).setSignature e
          (sigSet (sigSet (c.pEntityManager.mSignatures.get ⟨e, hge⟩) ct true) ct false)).1.getSignature e).1 = _
        rw [setSignature_lt he, setSignature_lt he, getSignature_lt he]
        show ((c.pEntityManager.mSignatures.set e
          (sigSet (c.pEntityManager.mSignatures.get ⟨e, hge⟩) ct true)).set e
          (sigSet (sigSet (c.pEntityManager.mSignatures.get ⟨e, hge⟩) ct true) ct false)).get? e = _
        rw [List.get?_set_eq_of_lt _ (by rw [List.length_set]; exact hge)]
      · show ct ∉ Finset.erase (insert ct (c.pEntityManager.mSignatures.get ⟨e, hge⟩)) ct
        exact Finset.not_mem_erase _ _
    · show cmGetComponent (ComponentManager.mk c.pComponentManager.mComponentTypes
        (setA (setA c.pComponentManager.mComponentArrays t
          (insertData arr e v).1) t (removeData (insertData arr e v).1 e).1)
        c.pComponentManager.mNextComponentType) t e = none
      unfold cmGetComponent
      have hctB : lookupA (ComponentManager.mk c.pComponentManager.mComponentTypes
          (setA (setA c.pComponentManager.mComponentArrays t
            (insertData arr e v).1) t (removeData (insertData arr e v).1 e).1)
          c.pComponentManager.mNextComponentType).mComponentTypes t = some ct := hct
      rw [getComponentArray_of_types hctB]
      show (match lookupA (setA (setA c.pComponentManager.mComponentArrays t
          (insertData arr e v).1) t (removeData (insertData arr e v).1 e).1) t with
        | none => none
        | some arr => getData arr e) = none
      rw [lookupA_setA, if_pos rfl]
      show getData (removeData (insertData arr e v).1 e).1 e = none
      exact getData_untracked hnone2

/-- Witness for the C3 theorem at the concrete coordinator coordW (component
type 0 registered, id 0, fresh array), entity 3, value 7. -/
theorem add_get_remove_component_witness :
    (lookupA coordW.pComponentManager.mComponentTypes 0 = some 0 ∧
      lookupA coordW.pComponentManager.mComponentArrays 0 = some (caInit Nat) ∧
      CAInv (caInit Nat) ∧
      lookupA (caInit Nat).mEntityToIndexMap 3 = none ∧
      (caInit Nat).mSize < MAX_ENTITIES ∧
      3 < MAX_ENTITIES ∧
      coordW.pEntityManager.mSignatures.length = MAX_ENTITIES) ∧
    (coordGetComponentType coordW 0 = some 0 ∧
      ∃ c1 n1, coordAddComponent coordW 0 3 7 = some (c1, n1) ∧
        coordGetComponent c1 0 3 = some 7 ∧
        (∃ sig1, (c1.pEntityManager.getSignature 3).1 = some sig1 ∧ 0 ∈ sig1) ∧
        ∃ c2 n2, coordRemoveComponent c1 0 3 = some (c2, n2) ∧
          (∃ sig2, (c2.pEntityManager.getSignature 3).1 = some sig2 ∧ 0 ∉ sig2) ∧
          coordGetComponent c2 0 3 = none) :=
  ⟨⟨rfl, rfl, caInit_inv Nat, rfl, by decide, by decide,
      by show (List.replicate MAX_ENTITIES (∅ : Signature)).length = MAX_ENTITIES; simp⟩,
    add_get_remove_component coordW 0 3 7 0 (caInit Nat) rfl rfl (caInit_inv Nat)
      rfl (by decide) (by decide)
      (by show (List.replicate MAX_ENTITIES (∅ : Signature)).length = MAX_ENTITIES; simp)⟩
